import Mathlib

/-!
# kv: a shallow embedding of the transactional storage engine

The development follows the C++ sources:

* `include/db.h`   : `DB::Open`, `DB::Begin`, `DB::BeginRWTx`, `DB::BeginRTx`
* `src/disk.h`     : `DiskHandler::Allocate`, `WritePage`, `WriteRaw`, `Sync`, `PageSize`,
                     `GetPageFromMmap`
* `src/bucket.h`   : `BucketMeta`, `Buckets::Bucket`, `Buckets::Read`, `Buckets::Write`
* `src/tx.h`       : `Tx::Tx`, `Tx::Rollback`, `Tx::Commit`, `Tx::GetBucket`,
                     `Tx::CreateBucket`, `Tx::WriteMeta`

Machine integers are natural numbers; every place where the C++ arithmetic can wrap or
narrow carries an explicit `% U64`, `% U32` or `% U16`.  A failed `assert` (or another
way of not returning at all) is the outcome `abort`; an `Error` handed back to the caller
is the outcome `err`.  Calls into the operating system (`mmap`, `write`, `fsync`) succeed
or fail as dictated by a script of outcomes carried by the disk handler.
-/

namespace kv

/-! ## Primitive types -/

/-- One byte of a page or of a `std::string`. -/
abbrev Byte := Fin 256

/-- A `std::string`: a sequence of bytes. -/
abbrev Name := List Byte

/-- Modulus of 64 bit unsigned arithmetic (`std::size_t`, `uint64_t`, `Pgid`). -/
def U64 : Nat := 2 ^ 64

/-- Modulus of 32 bit unsigned arithmetic (the `overflow` header field). -/
def U32 : Nat := 2 ^ 32

/-- Modulus of 16 bit unsigned arithmetic (the `count` header field). -/
def U16 : Nat := 2 ^ 16

/-- The value of `Error{"..."}`: an error carrying its message. -/
structure Error where
  message : String
deriving DecidableEq, Repr

/-- What a call does: it returns a value (`ok`), returns an `Error` (`err`), in both cases
leaving a state behind, or it does not return because an assertion failed (`abort`). -/
inductive Outcome (σ α : Type) where
  | ok (a : α) (s : σ)
  | err (e : Error) (s : σ)
  | abort
deriving DecidableEq, Repr

/-! ## DB (`include/db.h`) -/

/-- The data members of `DB` that `Open` and `Begin` touch: `opened_{false}`, `path_`,
`fd_{-1}`.  The two mutexes are taken and released inside `BeginRWTx`/`BeginRTx` and carry
no state across calls of a single thread. -/
structure DB where
  opened_ : Bool
  path_ : String
  fd_ : Int
deriving DecidableEq, Repr

/-- The constructor `DB(path)`: `path_(path)` with the default member initialisers. -/
def DB.new (path : String) : DB :=
  { opened_ := false, path_ := path, fd_ := -1 }

/-- `DB::Open`.  `sysOpen` is the value returned by `::open(path, O_RDWR | O_CREAT, 0666)`. -/
def DB.Open (sysOpen : Int) (path : String) : Except Error DB :=
  let db := DB.new path
  let db := { db with fd_ := sysOpen }
  if db.fd_ = -1 then
    Except.error (Error.mk "IO error")
  else
    Except.ok db

/-- `DB::BeginRWTx`.  The constructor `Tx(DB&)` used here is not part of the sources and is
the parameter `mkTx`. -/
def DB.BeginRWTx {τ : Type} (mkTx : DB → τ) (db : DB) : Except Error τ :=
  let tx := mkTx db
  if !db.opened_ then
    Except.error (Error.mk "DB not opened")
  else
    Except.ok tx

/-- `DB::BeginRTx`, with the same parameter `mkTx` for the absent constructor. -/
def DB.BeginRTx {τ : Type} (mkTx : DB → τ) (db : DB) : Except Error τ :=
  let tx := mkTx db
  if !db.opened_ then
    Except.error (Error.mk "DB not opened")
  else
    Except.ok tx

/-- `DB::Begin`. -/
def DB.Begin {τ : Type} (mkTx : DB → τ) (db : DB) (writable : Bool) : Except Error τ :=
  if writable then DB.BeginRWTx mkTx db else DB.BeginRTx mkTx db

/-! ## Pages -/

/-- Modelled from the spec: the page flags of `page.h`, which is not part of the sources
(spec, Page: "tagged variant discriminator: MetaPage, FreelistPage, BucketsPage, BranchPage,
LeafPage").  `Unset` is the value of a freshly zeroed page. -/
inductive PageFlag where
  | Unset
  | MetaPage
  | FreelistPage
  | BucketsPage
  | BranchPage
  | LeafPage
deriving DecidableEq, Repr

/-- Modelled from the spec: the `Page` of `page.h`, which is not part of the sources.  The
header is `id:u64 | flags:u16 | count:u16 | overflow:u32 | magic:u32`, followed by the body;
`body` holds the bytes after the header. -/
structure Page where
  id : Nat
  flags : PageFlag
  count : Nat
  overflow : Nat
  body : List Byte
deriving DecidableEq, Repr

/-- Modelled from the spec: the size in bytes of the page header `id:u64 | flags:u16 |
count:u16 | overflow:u32 | magic:u32`, which is also the `sizeof(Page)` of `disk.h`. -/
def PAGE_HEADER_SIZE : Nat := 20

/-- Modelled from the spec: `Page::SetId` of `page.h`, which is not part of the sources, stores
the 64 bit `id` of the header. -/
def Page.SetId (p : Page) (id : Nat) : Page := { p with id := id }

/-- Modelled from the spec: `Page::SetFlags` of `page.h`, which is not part of the sources,
stores the `flags` of the header. -/
def Page.SetFlags (p : Page) (f : PageFlag) : Page := { p with flags := f }

/-- Modelled from the spec: `Page::SetCount` of `page.h`, which is not part of the sources,
stores the `count` of the header, a field 16 bits wide. -/
def Page.SetCount (p : Page) (n : Nat) : Page := { p with count := n % U16 }

/-- Modelled from the spec: `Page::SetOverflow` of `page.h`, which is not part of the sources,
stores the `overflow` of the header, a field 32 bits wide. -/
def Page.SetOverflow (p : Page) (n : Nat) : Page := { p with overflow := n % U32 }

/-- Modelled from the spec: the logical span in bytes of a page, `(overflow + 1) * P`. -/
def Page.span (p : Page) (P : Nat) : Nat := (p.overflow + 1) * P

/-- Modelled from the spec: the first page of `PageBuffer(n, P)`, a zero-filled buffer of `n`
contiguous physical pages of `P` bytes (`page.h` is not part of the sources). -/
def PageBuffer.GetPage0 (n P : Nat) : Page :=
  { id := 0, flags := PageFlag.Unset, count := 0, overflow := 0,
    body := List.replicate (n * P - PAGE_HEADER_SIZE) 0 }

/-- Modelled from the spec: a `ShadowPage` (`shadow_page.h` is not part of the sources) owns
a `PageBuffer` of `npages` physical pages; `page` is the logical page at its start, the one
`ShadowPage::Get` returns. -/
structure ShadowPage where
  npages : Nat
  page : Page
deriving DecidableEq, Repr

/-! ## Meta -/

/-- Modelled from the spec: the `Meta` record, whose class is not part of the sources.  The
fields are those of the meta page bytes (spec, External interfaces); the checksum is computed
when the record is written. -/
structure Meta where
  magic : Nat
  version : Nat
  page_size : Nat
  flags : Nat
  buckets : Nat
  freelist : Nat
  watermark : Nat
  txid : Nat
deriving DecidableEq, Repr

/-- Modelled from the spec: `Meta::GetWatermark` reads the `watermark` field. -/
def Meta.GetWatermark (m : Meta) : Nat := m.watermark

/-- Modelled from the spec: `Meta::SetWatermark` stores the `watermark` field. -/
def Meta.SetWatermark (m : Meta) (w : Nat) : Meta := { m with watermark := w }

/-- Modelled from the spec: `Meta::GetBuckets` reads the `buckets_pgid` field. -/
def Meta.GetBuckets (m : Meta) : Nat := m.buckets

/-- Modelled from the spec: `Meta::SetBuckets` stores the `buckets_pgid` field. -/
def Meta.SetBuckets (m : Meta) (b : Nat) : Meta := { m with buckets := b }

/-- Modelled from the spec: `Meta::GetTxid` reads the `txid` field. -/
def Meta.GetTxid (m : Meta) : Nat := m.txid

/-- Modelled from the spec: `Meta::IncrementTxid`, which is not part of the sources (spec, Tx:
"For a write tx, increments a local copy of txid immediately"; Invariants: "every commit
increments txid by exactly 1"; Meta: "`txid` (monotonic 64-bit)").  The counter is a 64 bit
field: the increment wraps. -/
def Meta.IncrementTxid (m : Meta) : Meta := { m with txid := (m.txid + 1) % U64 }

/-! ## Little-endian integers and the page serializer -/

/-- The low byte of a number. -/
def toByte (n : Nat) : Byte := ⟨n % 256, Nat.mod_lt _ (by decide)⟩

/-- The `w` low bytes of `n`, least significant first: a fixed-width little-endian integer. -/
def leBytes : Nat → Nat → List Byte
  | 0, _ => []
  | w + 1, n => toByte n :: leBytes w (n / 256)

/-- The number a little-endian byte sequence stands for. -/
def leVal : List Byte → Nat
  | [] => 0
  | b :: bs => b.val + 256 * leVal bs

/-- Modelled from the spec: the `Serializer` of `persist.h`, which is not part of the sources
(spec, Page: "The serializer maintains a byte cursor and fails if it would exceed the logical
span `(overflow + 1) * P`").  `pos` is the cursor, counted from the start of the body. -/
structure Serializer where
  p : Page
  pos : Nat
deriving DecidableEq, Repr

/-- Modelled from the spec: writing raw bytes at the cursor; `none` when the write would
exceed the logical span of the page. -/
def Serializer.WriteBytes (s : Serializer) (P : Nat) (bs : List Byte) : Option Serializer :=
  if PAGE_HEADER_SIZE + s.pos + bs.length ≤ s.p.span P then
    some { p := { s.p with body := s.p.body.take s.pos ++ bs ++ s.p.body.drop (s.pos + bs.length) },
           pos := s.pos + bs.length }
  else
    none

/-- Modelled from the spec: `Serializer::Write` of a 64 bit integer or `Pgid`, fixed width,
little-endian. -/
def Serializer.WriteU64 (s : Serializer) (P : Nat) (n : Nat) : Option Serializer :=
  s.WriteBytes P (leBytes 8 n)

/-- Modelled from the spec: `Serializer::Write` of a `std::string`, a length-prefixed byte
string; the length is the 64 bit `size()`. -/
def Serializer.WriteString (s : Serializer) (P : Nat) (str : Name) : Option Serializer :=
  s.WriteBytes P (leBytes 8 str.length ++ str)

/-- Modelled from the spec: the `Deserializer` of `persist.h`, which is not part of the
sources; it reads back what the serializer writes and fails beyond the logical span. -/
structure Deserializer where
  p : Page
  pos : Nat
deriving DecidableEq, Repr

/-- Modelled from the spec: reading `n` raw bytes at the cursor. -/
def Deserializer.ReadBytes (d : Deserializer) (P : Nat) (n : Nat) :
    Option (List Byte × Deserializer) :=
  if PAGE_HEADER_SIZE + d.pos + n ≤ d.p.span P ∧ d.pos + n ≤ d.p.body.length then
    some ((d.p.body.drop d.pos).take n, { d with pos := d.pos + n })
  else
    none

/-- Modelled from the spec: `Deserializer::Read<uint64_t>` and `Read<Pgid>`. -/
def Deserializer.ReadU64 (d : Deserializer) (P : Nat) : Option (Nat × Deserializer) :=
  match d.ReadBytes P 8 with
  | none => none
  | some (bs, d1) => some (leVal bs, d1)

/-- Modelled from the spec: `Deserializer::Read<std::string>`. -/
def Deserializer.ReadString (d : Deserializer) (P : Nat) : Option (Name × Deserializer) :=
  match d.ReadU64 P with
  | none => none
  | some (len, d1) => d1.ReadBytes P len

/-- Modelled from the spec: the bytes of a meta record, `magic:u32 | version:u32 |
page_size:u32 | flags:u32 | buckets_pgid:u64 | freelist_pgid:u64 | watermark:u64 | txid:u64`. -/
def Meta.bytes (m : Meta) : List Byte :=
  leBytes 4 m.magic ++ leBytes 4 m.version ++ leBytes 4 m.page_size ++ leBytes 4 m.flags ++
  leBytes 8 m.buckets ++ leBytes 8 m.freelist ++ leBytes 8 m.watermark ++ leBytes 8 m.txid

/-- Modelled from the spec: the checksum, "64-bit FNV-1a ... over all preceding bytes". -/
def fnv1a (bs : List Byte) : Nat :=
  bs.foldl (fun h b => ((h ^^^ b.val) * 1099511628211) % U64) 14695981039346656037

/-- Modelled from the spec: `Meta::Write`, which is not part of the sources (spec, Meta:
"Write(page) serializes and computes checksum last"; Invariants: "meta page written at commit
lives at `txid % 2`"). -/
def Meta.Write (m : Meta) (p : Page) : Page :=
  let bs := m.bytes ++ leBytes 8 (fnv1a m.bytes)
  { p with id := m.txid % 2, flags := PageFlag.MetaPage, body := bs ++ p.body.drop bs.length }

/-- Modelled from the spec: the `txid` field stored in the body of a meta page, the 8 bytes
after the 40 bytes of the fields before it. -/
def Meta.txidOfPage (p : Page) : Nat := leVal ((p.body.drop 40).take 8)

/-! ## Buckets (`src/bucket.h`) -/

/-- `BucketMeta`: the root page id and the auto id of a bucket. -/
structure BucketMeta where
  root_ : Nat
  auto_id_ : Nat
deriving DecidableEq, Repr

/-- `BucketMeta::Root`. -/
def BucketMeta.Root (b : BucketMeta) : Nat := b.root_

/-- `BucketMeta::AutoId`. -/
def BucketMeta.AutoId (b : BucketMeta) : Nat := b.auto_id_

/-- `Buckets`: the `std::unordered_map<std::string, BucketMeta>` as the list of its entries,
in the order in which the map iterates them. -/
structure Buckets where
  buckets_ : List (Name × BucketMeta)
deriving DecidableEq, Repr

/-- `buckets_.find(name)`: the entry stored under `name`, if any. -/
def Buckets.find (b : Buckets) (name : Name) : Option BucketMeta :=
  b.buckets_.lookup name

/-- `buckets_.emplace(name, meta)`: inserts unless the key is present. -/
def Buckets.emplace (b : Buckets) (name : Name) (m : BucketMeta) : Buckets :=
  match b.find name with
  | some _ => b
  | none => { buckets_ := b.buckets_ ++ [(name, m)] }

/-- `Buckets::Size`, which returns a `uint16_t`. -/
def Buckets.Size (b : Buckets) : Nat := b.buckets_.length % U16

/-- `Buckets::Bucket(name)`, called `GetBucket` by `tx.h`. -/
def Buckets.GetBucket (b : Buckets) (name : Name) : Option BucketMeta :=
  match b.find name with
  | none => none
  | some m => some m

/-- The loop of `Buckets::Read`: `n` more entries are read and emplaced; `none` when the
deserializer fails or the assertion `buckets_.find(name) == buckets_.end()` does. -/
def Buckets.ReadLoop (P : Nat) : Nat → Deserializer → Buckets → Option Buckets
  | 0, _, acc => some acc
  | n + 1, d, acc =>
    match d.ReadString P with
    | none => none
    | some (name, d1) =>
      match d1.ReadU64 P with
      | none => none
      | some (auto_id, d2) =>
        match d2.ReadU64 P with
        | none => none
        | some (root, d3) =>
          if (acc.find name).isSome then none
          else Buckets.ReadLoop P n d3 (acc.emplace name (BucketMeta.mk root auto_id))

/-- `Buckets::Read`, run by the constructor `Buckets(Page&)` on an empty map. -/
def Buckets.Read (p : Page) (P : Nat) : Option Buckets :=
  Buckets.ReadLoop P p.count { p := p, pos := 0 } { buckets_ := [] }

/-- The loop of `Buckets::Write` over the entries of the map. -/
def Buckets.WriteLoop (P : Nat) : List (Name × BucketMeta) → Serializer → Option Serializer
  | [], s => some s
  | (name, b) :: rest, s =>
    match s.WriteString P name with
    | none => none
    | some s1 =>
      match s1.WriteU64 P b.AutoId with
      | none => none
      | some s2 =>
        match s2.WriteU64 P b.Root with
        | none => none
        | some s3 => Buckets.WriteLoop P rest s3

/-- `Buckets::Write` into the page `p`; `none` when the serializer fails. -/
def Buckets.Write (b : Buckets) (p : Page) (P : Nat) : Option Page :=
  let p := p.SetCount b.buckets_.length
  match Buckets.WriteLoop P b.buckets_ { p := p, pos := 0 } with
  | none => none
  | some s => some s.p

/-- Modelled from the spec: `Buckets::AddBucket`, which is not part of the sources (spec,
Buckets: "`AddBucket(name, meta)` (fails if exists or name empty)"). -/
def Buckets.AddBucket (b : Buckets) (name : Name) (m : BucketMeta) :
    Option (BucketMeta × Buckets) :=
  if (b.find name).isSome ∨ name.length = 0 then none
  else some (m, b.emplace name m)

/-- Modelled from the spec: `Buckets::GetStorageSize`, which is not part of the sources (spec,
Buckets: "`StorageSize()` (serialized byte size)"): the header and, for every entry, the
length-prefixed name and the two 64 bit integers. -/
def Buckets.GetStorageSize (b : Buckets) : Nat :=
  (PAGE_HEADER_SIZE + (b.buckets_.map (fun e => 8 + e.1.length + 8 + 8)).sum) % U64

/-- Modelled from the spec: the update of `buckets[name].root_pgid` made by `Spill`. -/
def Buckets.SetRoot (b : Buckets) (name : Name) (root : Nat) : Buckets :=
  { buckets_ := b.buckets_.map
      (fun e => if e.1 = name then (e.1, BucketMeta.mk root e.2.auto_id_) else e) }

/-! ## DiskHandler (`src/disk.h`) -/

/-- What the disk handler asked of the file: a `write` of `size` bytes at `offset` taken from
the page `page`, or an `fsync`. -/
inductive DiskOp where
  | write (offset size : Nat) (page : Page)
  | sync
deriving DecidableEq, Repr

/-- The state of a `DiskHandler`.  `mmap_size` is `mmap_handle_.Size()`; `mmap_pages` gives the
valid page (right magic) found at a byte position of the mapping; `log` records the requests
sent to the file, oldest first; `faults` is the script of the results of the coming operating
system calls (`none` for success), an exhausted script meaning success. -/
structure DiskHandler where
  opened_ : Bool
  page_size_ : Nat
  mmap_size : Nat
  mmap_pages : List (Nat × Page)
  log : List DiskOp
  faults : List (Option Error)
deriving DecidableEq, Repr

/-- The result of the next operating system call. -/
def DiskHandler.sys (d : DiskHandler) : Option Error × DiskHandler :=
  match d.faults with
  | [] => (none, d)
  | r :: rest => (r, { d with faults := rest })

/-- `DiskHandler::PageSize`: `assert(opened_)`, then `page_size_`. -/
def DiskHandler.PageSize (d : DiskHandler) : Option Nat :=
  if d.opened_ then some d.page_size_ else none

/-- `DiskHandler::Sync`, that is `fd_.Sync()`. -/
def DiskHandler.Sync (d : DiskHandler) : Option Error × DiskHandler :=
  match d.sys with
  | (r, d1) => (r, { d1 with log := d1.log ++ [DiskOp.sync] })

/-- `DiskHandler::WriteRaw`: seek, write, `Error{"IO Error"}` when the stream failed, else the
result of `fd_.Sync()`. -/
def DiskHandler.WriteRaw (d : DiskHandler) (data : Page) (size offset : Nat) :
    Option Error × DiskHandler :=
  match d.sys with
  | (some _, d1) =>
    (some (Error.mk "IO Error"), { d1 with log := d1.log ++ [DiskOp.write offset size data] })
  | (none, d1) =>
    DiskHandler.Sync { d1 with log := d1.log ++ [DiskOp.write offset size data] }

/-- `DiskHandler::WritePage`: `(p.Overflow() + 1) * PageSize()` bytes at `p.Id() * PageSize()`. -/
def DiskHandler.WritePage (d : DiskHandler) (p : Page) : Outcome DiskHandler Unit :=
  match d.PageSize with
  | none => Outcome.abort
  | some P =>
    match d.WriteRaw p (((p.overflow + 1) * P) % U64) ((p.id * P) % U64) with
    | (some e, d1) => Outcome.err e d1
    | (none, d1) => Outcome.ok () d1

/-- Modelled from the spec: `MmapDataHandle::Mmap(path, fd, min_sz)` (`mmap.h` is not part of
the sources) maps at least `min_sz` bytes or returns an error. -/
def DiskHandler.Mmap (d : DiskHandler) (min_sz : Nat) : Option Error × DiskHandler :=
  match d.sys with
  | (some e, d1) => (some e, d1)
  | (none, d1) => (none, { d1 with mmap_size := min_sz })

/-- `DiskHandler::GetPageFromMmap`; `none` when one of its assertions fails. -/
def DiskHandler.GetPageFromMmap (d : DiskHandler) (id : Nat) : Option Page :=
  if !d.opened_ then none
  else
    let pos := (id * d.page_size_) % U64
    if ¬ (pos + PAGE_HEADER_SIZE ≤ d.mmap_size) then none
    else
      match d.mmap_pages.lookup pos with
      | none => none
      | some p => if p.id = id then some p else none

/-- `DiskHandler::Allocate`.  The state it leaves is the handler and the meta it was given by
reference. -/
def DiskHandler.Allocate (d : DiskHandler) (rwtx_meta : Meta) (count : Nat) :
    Outcome (DiskHandler × Meta) ShadowPage :=
  let shadow_page : ShadowPage := { npages := count, page := PageBuffer.GetPage0 count d.page_size_ }
  let p := shadow_page.page
  let p := p.SetOverflow ((count + U64 - 1) % U64)
  let cur_wm := rwtx_meta.GetWatermark
  let p := p.SetId cur_wm
  if ¬ (2 < p.id) then Outcome.abort
  else
    let min_sz := (((p.id + count) % U64) * d.page_size_) % U64
    if d.mmap_size < min_sz then
      match d.Mmap min_sz with
      | (some e, d1) => Outcome.err e (d1, rwtx_meta)
      | (none, d1) =>
        Outcome.ok { shadow_page with page := p }
          (d1, rwtx_meta.SetWatermark ((cur_wm + count) % U64))
    else
      Outcome.ok { shadow_page with page := p }
        (d, rwtx_meta.SetWatermark ((cur_wm + count) % U64))

/-! ## ShadowPageHandler -/

/-- Modelled from the spec: a dirty node waiting for its shadow page (`tx_cache.h` and the
B+tree nodes are not part of the sources): the bucket whose root it becomes, the number of
physical pages it needs and the kind of page. -/
structure DirtyNode where
  bucket : Name
  npages : Nat
  flags : PageFlag
deriving DecidableEq, Repr

/-- Modelled from the spec: the `ShadowPageHandler` of `tx_cache.h`, which is not part of the
sources (spec, ShadowPager: "Per-tx allocator and dirty-page tracker").  `pages_` are the
shadow pages reserved for this tx, the most recent first; `dirty_` the nodes under edit. -/
structure ShadowPageHandler where
  writable_ : Bool
  pages_ : List ShadowPage
  dirty_ : List DirtyNode
deriving DecidableEq, Repr

/-- Modelled from the spec: the constructor `ShadowPageHandler(disk, writable)`, which is not
part of the sources: no shadow page, no dirty node. -/
def ShadowPageHandler.new (writable : Bool) : ShadowPageHandler :=
  { writable_ := writable, pages_ := [], dirty_ := [] }

/-- Modelled from the spec: `AllocateShadowPage(meta, count)` "delegates to `Disk.Allocate`
and returns a mutable page view backed by a tx-owned byte buffer". -/
def ShadowPageHandler.AllocateShadowPage (h : ShadowPageHandler) (d : DiskHandler) (m : Meta)
    (count : Nat) : Outcome (ShadowPageHandler × DiskHandler × Meta) Page :=
  match d.Allocate m count with
  | Outcome.abort => Outcome.abort
  | Outcome.err e (d1, m1) => Outcome.err e (h, d1, m1)
  | Outcome.ok sp (d1, m1) => Outcome.ok sp.page ({ h with pages_ := sp :: h.pages_ }, d1, m1)

/-- Modelled from the spec: a store through the mutable page view returned by the latest
`AllocateShadowPage`. -/
def ShadowPageHandler.setLast (h : ShadowPageHandler) (p : Page) : ShadowPageHandler :=
  match h.pages_ with
  | [] => h
  | sp :: rest => { h with pages_ := { sp with page := p } :: rest }

/-- Modelled from the spec: the walk of `Spill` over the dirty nodes; each gets a shadow page
("Allocate a shadow page for the (possibly new) node"), and the root of its bucket is updated. -/
def ShadowPageHandler.SpillNodes :
    List DirtyNode → ShadowPageHandler → DiskHandler → Meta → Buckets →
      Outcome (ShadowPageHandler × DiskHandler × Meta × Buckets) Unit
  | [], h, d, m, b => Outcome.ok () ({ h with dirty_ := [] }, d, m, b)
  | n :: rest, h, d, m, b =>
    match h.AllocateShadowPage d m n.npages with
    | Outcome.abort => Outcome.abort
    | Outcome.err e (h1, d1, m1) => Outcome.err e ({ h1 with dirty_ := n :: rest }, d1, m1, b)
    | Outcome.ok p (h1, d1, m1) =>
      ShadowPageHandler.SpillNodes rest (h1.setLast (p.SetFlags n.flags)) d1 m1
        (b.SetRoot n.bucket p.id)

/-- Modelled from the spec: `Spill(meta, buckets)` "walks every dirty root per bucket, ...,
updates `buckets[name].root_pgid`"; the rebalancing and splitting of nodes is not part of the
sources, a dirty node stands for the page it ends up in. -/
def ShadowPageHandler.Spill (h : ShadowPageHandler) (d : DiskHandler) (m : Meta) (b : Buckets) :
    Outcome (ShadowPageHandler × DiskHandler × Meta × Buckets) Unit :=
  ShadowPageHandler.SpillNodes h.dirty_ h d m b

/-- Modelled from the spec: the writes of `WriteDirtyPages`, one `WritePage` per shadow page. -/
def ShadowPageHandler.WritePages : List ShadowPage → DiskHandler → Outcome DiskHandler Unit
  | [], d => Outcome.ok () d
  | sp :: rest, d =>
    match d.WritePage sp.page with
    | Outcome.abort => Outcome.abort
    | Outcome.err e d1 => Outcome.err e d1
    | Outcome.ok _ d1 => ShadowPageHandler.WritePages rest d1

/-- Modelled from the spec: `WriteDirtyPages()` "writes every shadow buffer via
`Disk.WritePage`, then `Disk.Sync()`", in the order of allocation. -/
def ShadowPageHandler.WriteDirtyPages (h : ShadowPageHandler) (d : DiskHandler) :
    Outcome DiskHandler Unit :=
  match ShadowPageHandler.WritePages h.pages_.reverse d with
  | Outcome.abort => Outcome.abort
  | Outcome.err e d1 => Outcome.err e d1
  | Outcome.ok _ d1 =>
    match d1.Sync with
    | (some e, d2) => Outcome.err e d2
    | (none, d2) => Outcome.ok () d2

/-! ## Tx (`src/tx.h`) -/

/-- The data members of `Tx`.  `disk_` is the state of the disk handler the tx refers to. -/
structure Tx where
  open_ : Bool
  disk_ : DiskHandler
  tx_handler_ : ShadowPageHandler
  writable_ : Bool
  meta_ : Meta
  buckets_ : Buckets
deriving DecidableEq, Repr

/-- The constructor `Tx(disk, writable, db_meta)`; `none` when an assertion of
`GetPageFromMmap` or of `Buckets::Read` fails. -/
def Tx.new (disk : DiskHandler) (writable : Bool) (db_meta : Meta) : Option Tx :=
  match disk.GetPageFromMmap db_meta.GetBuckets with
  | none => none
  | some p =>
    match Buckets.Read p disk.page_size_ with
    | none => none
    | some b =>
      let tx : Tx :=
        { open_ := true, disk_ := disk, tx_handler_ := ShadowPageHandler.new writable,
          writable_ := writable, meta_ := db_meta, buckets_ := b }
      if tx.writable_ then some { tx with meta_ := tx.meta_.IncrementTxid } else some tx

/-- `Tx::Rollback`: it logs and does nothing else. -/
def Tx.Rollback (tx : Tx) : Tx := tx

/-- `Tx::Writable`. -/
def Tx.Writable (tx : Tx) : Bool := tx.writable_

/-- `Tx::WriteMeta`. -/
def Tx.WriteMeta (tx : Tx) : Outcome Tx Unit :=
  match tx.disk_.PageSize with
  | none => Outcome.abort
  | some P =>
    let p := PageBuffer.GetPage0 1 P
    let p := tx.meta_.Write p
    match tx.disk_.WritePage p with
    | Outcome.abort => Outcome.abort
    | Outcome.err e d1 => Outcome.err e { tx with disk_ := d1 }
    | Outcome.ok _ d1 =>
      match d1.Sync with
      | (some e, d2) => Outcome.err e { tx with disk_ := d2 }
      | (none, d2) => Outcome.ok () { tx with disk_ := d2 }

/-- The number of pages `Tx::Commit` asks for the shadow buckets page:
`(buckets_.GetStorageSize() / disk_.PageSize()) + 1`. -/
def Tx.bucketsPageCount (storageSize pageSize : Nat) : Nat :=
  (storageSize / pageSize + 1) % U64

/-- `Tx::Commit`.  A division by a zero page size, and a serializer that fails while the
registry is written, do not return. -/
def Tx.Commit (tx : Tx) : Outcome Tx Unit :=
  match tx.tx_handler_.Spill tx.disk_ tx.meta_ tx.buckets_ with
  | Outcome.abort => Outcome.abort
  | Outcome.err e (h, d, m, b) =>
    Outcome.err e { tx with tx_handler_ := h, disk_ := d, meta_ := m, buckets_ := b }
  | Outcome.ok _ (h, d, m, b) =>
    match d.PageSize with
    | none => Outcome.abort
    | some P =>
      if P = 0 then Outcome.abort
      else
        match h.AllocateShadowPage d m (Tx.bucketsPageCount b.GetStorageSize P) with
        | Outcome.abort => Outcome.abort
        | Outcome.err e (h1, d1, m1) =>
          Outcome.err e { tx with tx_handler_ := h1, disk_ := d1, meta_ := m1, buckets_ := b }
        | Outcome.ok p (h1, d1, m1) =>
          match b.Write p P with
          | none => Outcome.abort
          | some p1 =>
            let h2 := h1.setLast p1
            let m2 := m1.SetBuckets p1.id
            match h2.WriteDirtyPages d1 with
            | Outcome.abort => Outcome.abort
            | Outcome.err e d2 =>
              Outcome.err e { tx with tx_handler_ := h2, disk_ := d2, meta_ := m2, buckets_ := b }
            | Outcome.ok _ d2 =>
              Tx.WriteMeta { tx with tx_handler_ := h2, disk_ := d2, meta_ := m2, buckets_ := b }

/-- `Tx::GetBucket`: the handle `Bucket{tx_handler_, name, meta}` is its name and meta. -/
def Tx.GetBucket (tx : Tx) (name : Name) : Option (Name × BucketMeta) :=
  match tx.buckets_.GetBucket name with
  | none => none
  | some b => some (name, b)

/-- `Tx::CreateBucket`.  `BucketMeta{p.Id()}` has the auto id 0. -/
def Tx.CreateBucket (tx : Tx) (name : Name) : Outcome Tx BucketMeta :=
  if !tx.open_ then Outcome.err (Error.mk "Tx not open") tx
  else if !tx.writable_ then Outcome.err (Error.mk "Tx not writable") tx
  else if (tx.buckets_.GetBucket name).isSome then Outcome.err (Error.mk "Bucket exists") tx
  else if name.length = 0 then Outcome.err (Error.mk "Bucket name required") tx
  else
    match tx.tx_handler_.AllocateShadowPage tx.disk_ tx.meta_ 1 with
    | Outcome.abort => Outcome.abort
    | Outcome.err e (h1, d1, m1) =>
      Outcome.err e { tx with tx_handler_ := h1, disk_ := d1, meta_ := m1 }
    | Outcome.ok p (h1, d1, m1) =>
      let p := p.SetFlags PageFlag.LeafPage
      let h2 := h1.setLast p
      match tx.buckets_.AddBucket name (BucketMeta.mk p.id 0) with
      | none => Outcome.abort
      | some (b, buckets1) =>
        Outcome.ok b { tx with tx_handler_ := h2, disk_ := d1, meta_ := m1, buckets_ := buckets1 }

/-! ## Observations on outcomes and on the disk log -/

/-- The call returned a value. -/
def Outcome.isOk {σ α : Type} : Outcome σ α → Bool
  | Outcome.ok _ _ => true
  | _ => false

/-- The error the call returned, if it returned one. -/
def Outcome.error? {σ α : Type} : Outcome σ α → Option Error
  | Outcome.err e _ => some e
  | _ => none

/-- The state the call left, when it returned. -/
def Outcome.state? {σ α : Type} : Outcome σ α → Option σ
  | Outcome.ok _ s => some s
  | Outcome.err _ s => some s
  | Outcome.abort => none

/-- A request that writes bytes of the two meta pages: with pages of `P` bytes these are the
bytes `0 .. 2 * P - 1` of the file, so it is a write of at least one byte that starts below
`2 * P`. -/
def DiskOp.isMetaWrite (P : Nat) : DiskOp → Bool
  | DiskOp.write offset size _ => decide (offset < 2 * P ∧ 0 < size)
  | DiskOp.sync => false

/-- The requests of a log that write bytes of the two meta pages, for pages of `P` bytes. -/
def metaWrites (P : Nat) (log : List DiskOp) : List DiskOp :=
  log.filter (DiskOp.isMetaWrite P)

/-- Every value of a registry fits its C++ type: 64 bit roots, auto ids and name sizes. -/
def Buckets.WF (es : List (Name × BucketMeta)) : Prop :=
  ∀ e ∈ es, e.1.length < U64 ∧ e.2.root_ < U64 ∧ e.2.auto_id_ < U64

/-- The bytes `Buckets::Write` produces for a list of entries. -/
def Buckets.encode : List (Name × BucketMeta) → List Byte
  | [] => []
  | (name, b) :: rest =>
    (leBytes 8 name.length ++ name) ++ leBytes 8 b.auto_id_ ++ leBytes 8 b.root_ ++
      Buckets.encode rest

/-- Rounding-up division, `ceil(a / b)`. -/
def ceilDiv (a b : Nat) : Nat := (a + b - 1) / b

/-! ## Example states -/

/-- An opened disk handler with 64 byte pages, a 1024 byte mapping and no failing system call. -/
def exDisk : DiskHandler :=
  { opened_ := true, page_size_ := 64, mmap_size := 1024, mmap_pages := [], log := [],
    faults := [] }

/-- A meta snapshot: the tree pages start at the watermark 4. -/
def exMeta : Meta :=
  { magic := 1, version := 1, page_size := 64, flags := 0, buckets := 3, freelist := 2,
    watermark := 4, txid := 7 }

/-- An open tx over `exDisk` and `exMeta` with an empty registry. -/
def exTx (writable : Bool) : Tx :=
  { open_ := true, disk_ := exDisk, tx_handler_ := ShadowPageHandler.new writable,
    writable_ := writable, meta_ := exMeta, buckets_ := { buckets_ := [] } }

/-- The meta snapshot `exMeta` with the watermark at the last 64 bit page id. -/
def exMetaFull : Meta := { exMeta with watermark := 2 ^ 64 - 1 }

/-- The writable example tx after `CreateBucket("b")`. -/
def exTxWithBucket : Option Tx := ((exTx true).CreateBucket [98]).state?

/-- The tx `exTxWithBucket` after `Rollback`. -/
def exTxRolledBack : Option Tx := exTxWithBucket.map Tx.Rollback

/-- The tx `exTxWithBucket` after a `Commit` that succeeded. -/
def exTxCommitted : Option Tx :=
  exTxWithBucket.bind (fun t => if t.Commit.isOk then t.Commit.state? else none)

/-- What the operations of a tx answer: whether `CreateBucket("c")` succeeds, whether
`GetBucket("b")` finds the bucket, whether `Commit` succeeds, and the error of
`CreateBucket("c")`. -/
def Tx.probe (t : Tx) : Bool × Bool × Bool × Option Error :=
  ((t.CreateBucket [99]).isOk, (t.GetBucket [98]).isSome, t.Commit.isOk,
    (t.CreateBucket [99]).error?)

/-- The disk handler `d1` is `d` after requests that write no meta page: the page size and the
open flag are the same, and the log of `d1` is the log of `d` followed by requests none of
which writes a byte of page 0 or page 1. -/
def DiskHandler.dataExt (d d1 : DiskHandler) : Prop :=
  d1.page_size_ = d.page_size_ ∧ d1.opened_ = d.opened_ ∧
    ∃ ops, d1.log = d.log ++ ops ∧ metaWrites d.page_size_ ops = []

/-- Every shadow page held by the handler lies above the meta pages and the first freelist
page, as `Allocate` asserts of each page it hands out. -/
def ShadowPageHandler.aboveMeta (h : ShadowPageHandler) : Prop :=
  ∀ sp ∈ h.pages_, 2 < sp.page.id

/-- The byte offset `id * P` at which a shadow page belongs is below `2^64` for every shadow
page held by the handler: `WritePage` computes it without wrapping. -/
def ShadowPageHandler.inFile (h : ShadowPageHandler) (P : Nat) : Prop :=
  ∀ sp ∈ h.pages_, sp.page.id * P < U64

/-- The writable example tx after `CreateBucket("b")`, over a disk whose next system call
fails: it holds the leaf page 4, and its watermark is 5. -/
def exTxDirty : Tx :=
  { open_ := true,
    disk_ := { exDisk with faults := [some (Error.mk "disk full")] },
    tx_handler_ :=
      { writable_ := true,
        pages_ := [{ npages := 1,
                     page := (((PageBuffer.GetPage0 1 64).SetOverflow 0).SetId 4).SetFlags
                       PageFlag.LeafPage }],
        dirty_ := [] },
    writable_ := true,
    meta_ := { exMeta with watermark := 5 },
    buckets_ := { buckets_ := [([98], BucketMeta.mk 4 0)] } }

/-- A writable tx over `exDisk` whose registry holds one bucket with a name of 20 bytes: the
serialized registry takes `20 + (8 + 20 + 8 + 8) = 64` bytes, exactly one page. -/
def exTxAligned : Tx :=
  { open_ := true, disk_ := exDisk, tx_handler_ := ShadowPageHandler.new true,
    writable_ := true, meta_ := { exMeta with watermark := 5 },
    buckets_ := { buckets_ := [(List.replicate 20 97, BucketMeta.mk 4 0)] } }

/-- The empty buckets page 3 of a freshly formatted file with 64 byte pages. -/
def exBucketsPage : Page :=
  { id := 3, flags := PageFlag.BucketsPage, count := 0, overflow := 0,
    body := List.replicate 44 0 }

/-- The example disk with the buckets page 3 in its mapping. -/
def exDiskFormatted : DiskHandler :=
  { exDisk with mmap_pages := [(192, exBucketsPage)] }

/-- A registry of two buckets, "b" and "cd". -/
def exEntries : List (Name × BucketMeta) :=
  [([98], BucketMeta.mk 5 9), ([99, 100], BucketMeta.mk 6 1)]

/-- A fresh shadow page of two physical pages of 64 bytes. -/
def exWidePage : Page := ((PageBuffer.GetPage0 2 64).SetOverflow 1).SetId 7

/-- The shadow pages the tx holds lie above the meta pages at byte offsets below `2^64`, and
so do those its commit allocates for its dirty nodes and for the registry, the last of which
gets the watermark plus the pages of the dirty nodes as id. -/
def Tx.inDataRange (tx : Tx) : Prop :=
  tx.tx_handler_.aboveMeta ∧ tx.tx_handler_.inFile tx.disk_.page_size_ ∧
  (tx.meta_.watermark + (tx.tx_handler_.dirty_.map DirtyNode.npages).sum) *
    tx.disk_.page_size_ < U64

/-- An opened disk handler with 4096 byte pages and a 1 GiB mapping that holds the empty
buckets page 3; its next write succeeds and the `fsync` after it fails. -/
def exDiskWrap : DiskHandler :=
  { opened_ := true, page_size_ := 4096, mmap_size := 2 ^ 30,
    mmap_pages := [(3 * 4096, { exBucketsPage with body := List.replicate 4076 0 })],
    log := [], faults := [none, some (Error.mk "fsync failed")] }

/-- A meta snapshot for 4096 byte pages with the txid 6, so that it lives in meta page 0, and
the watermark `2^52`. -/
def exMetaWrap : Meta := { exMeta with page_size := 4096, watermark := 2 ^ 52, txid := 6 }

/-- The writable tx the constructor builds over `exDiskWrap` from the snapshot `exMetaWrap`:
an empty registry, no shadow page, the txid 7 and the watermark `2^52`. -/
def exTxWrap : Tx :=
  { open_ := true,
    disk_ := exDiskWrap,
    tx_handler_ := ShadowPageHandler.new true,
    writable_ := true,
    meta_ := { exMetaWrap with txid := 7 },
    buckets_ := { buckets_ := [] } }

/-- C1 (code defect).  `DB::Open` never sets `opened_`: whenever it succeeds, `Begin` on the
returned `DB` returns the error "DB not opened", for both values of `writable`, where the
claim promises a `Tx`. -/
theorem c1_begin_after_open_is_not_opened {τ : Type} (mkTx : DB → τ) (sysOpen : Int)
    (path : String) (writable : Bool) (hfd : sysOpen ≠ -1) :
    ∃ db, DB.Open sysOpen path = Except.ok db ∧
      DB.Begin mkTx db writable = Except.error (Error.mk "DB not opened") := by
  refine ⟨{ opened_ := false, path_ := path, fd_ := sysOpen }, ?_, ?_⟩
  · simp [DB.Open, DB.new, hfd]
  · cases writable <;> simp [DB.Begin, DB.BeginRWTx, DB.BeginRTx]

/-- Witness of C1: the file descriptor 3 for "./db.db", as in `test/main.cc`. -/
theorem c1_begin_after_open_is_not_opened_witness :
    ∃ db, DB.Open 3 "./db.db" = Except.ok db ∧
      DB.Begin (fun _ => ()) db false = Except.error (Error.mk "DB not opened") :=
  c1_begin_after_open_is_not_opened (fun _ => ()) 3 "./db.db" false (by decide)

/-- C2.  When the tx is not writable, or the registry holds a bucket called `name`, or `name`
is empty, `CreateBucket` returns an error and leaves the whole tx as it was: no shadow page
is added, the disk handler, the registry and the meta (watermark included) are unchanged. -/
theorem c2_create_bucket_rejects (tx : Tx) (name : Name)
    (h : tx.writable_ = false ∨ (tx.buckets_.GetBucket name).isSome = true ∨ name.length = 0) :
    ∃ e, tx.CreateBucket name = Outcome.err e tx := by
  unfold Tx.CreateBucket
  by_cases ho : tx.open_ = true
  · by_cases hw : tx.writable_ = true
    · by_cases hb : (tx.buckets_.GetBucket name).isSome = true
      · exact ⟨Error.mk "Bucket exists", by simp [ho, hw, hb]⟩
      · by_cases hn : name.length = 0
        · exact ⟨Error.mk "Bucket name required", by simp [ho, hw, hb, hn]⟩
        · rcases h with h | h | h
          · simp [hw] at h
          · exact absurd h hb
          · exact absurd h hn
    · exact ⟨Error.mk "Tx not writable", by simp [ho, hw]⟩
  · exact ⟨Error.mk "Tx not open", by simp [ho]⟩

/-- Witness of C2: a read-only tx asked to create the bucket "b". -/
theorem c2_create_bucket_rejects_witness :
    ∃ e, (exTx false).CreateBucket [98] = Outcome.err e (exTx false) :=
  c2_create_bucket_rejects (exTx false) [98] (Or.inl rfl)

/-- A system call leaves the log, the page size, the open flag and the mapping alone. -/
theorem sys_log (d : DiskHandler) : d.sys.2.log = d.log ∧ d.sys.2.page_size_ = d.page_size_ ∧
    d.sys.2.opened_ = d.opened_ ∧ d.sys.2.mmap_pages = d.mmap_pages := by
  unfold DiskHandler.sys
  cases d.faults <;> simp

/-- What a successful `Allocate` returns and leaves behind. -/
theorem allocate_ok_inv (d : DiskHandler) (M : Meta) (count : Nat) (sp : ShadowPage)
    (d1 : DiskHandler) (M1 : Meta) (h : d.Allocate M count = Outcome.ok sp (d1, M1)) :
    2 < M.watermark ∧
    sp = { npages := count,
           page := ((PageBuffer.GetPage0 count d.page_size_).SetOverflow
                      ((count + U64 - 1) % U64)).SetId M.watermark } ∧
    M1 = M.SetWatermark ((M.watermark + count) % U64) ∧
    d1.log = d.log ∧ d1.page_size_ = d.page_size_ ∧ d1.opened_ = d.opened_ := by
  unfold DiskHandler.Allocate at h
  simp only [Meta.GetWatermark, Page.SetId] at h
  split at h
  · cases h
  · rename_i hwm
    have hwm2 : 2 < M.watermark := by simpa using hwm
    split at h
    · unfold DiskHandler.Mmap at h
      have hs := sys_log d
      rcases hsys : d.sys with ⟨r, ds⟩
      rw [hsys] at h hs
      cases r with
      | some e => simp at h
      | none =>
        simp only [Outcome.ok.injEq, Prod.mk.injEq] at h
        obtain ⟨h1, h2, h3⟩ := h
        subst h1 h2 h3
        simp at hs
        exact ⟨hwm2, rfl, rfl, hs.1, hs.2.1, hs.2.2.1⟩
    · simp only [Outcome.ok.injEq, Prod.mk.injEq] at h
      obtain ⟨h1, h2, h3⟩ := h
      subst h1 h2 h3
      exact ⟨hwm2, rfl, rfl, rfl, rfl, rfl⟩

/-- Appending an entry does not change the lookup of another key. -/
theorem lookup_append_single_ne {β : Type} (l : List (Name × β)) (name other : Name) (m : β)
    (h : other ≠ name) : (l ++ [(name, m)]).lookup other = l.lookup other := by
  induction l with
  | nil =>
    have : (other == name) = false := by simpa using h
    simp [List.lookup, this]
  | cons x xs ih =>
    obtain ⟨k, v⟩ := x
    simp only [List.cons_append, List.lookup_cons]
    cases other == k <;> simp [ih]

/-- A key that was absent is found at the appended entry. -/
theorem lookup_append_single_self {β : Type} (l : List (Name × β)) (name : Name) (m : β)
    (h : l.lookup name = none) : (l ++ [(name, m)]).lookup name = some m := by
  induction l with
  | nil => simp [List.lookup]
  | cons x xs ih =>
    obtain ⟨k, v⟩ := x
    simp only [List.cons_append, List.lookup_cons] at h ⊢
    cases hk : name == k
    · rw [hk] at h; simp only at h; exact ih h
    · rw [hk] at h; simp at h

/-- `GetBucket` is the lookup of the map. -/
theorem getBucket_eq_find (b : Buckets) (name : Name) : b.GetBucket name = b.find name := by
  unfold Buckets.GetBucket
  cases b.find name <;> rfl

/-- C4 (code defect).  Neither `Rollback` nor a successful `Commit` closes the tx: on the
writable example tx holding the bucket "b", after `Rollback` as well as after a successful
`Commit`, `open_` is still set, `CreateBucket("c")` succeeds without any error, `GetBucket("b")`
finds the bucket and `Commit` succeeds, where the claim promises the tx-closed error. -/
theorem c4_tx_never_closes :
    exTxRolledBack.map (fun t => (t.open_, t.probe)) = some (true, true, true, true, none) ∧
    exTxCommitted.map (fun t => (t.open_, t.probe)) = some (true, true, true, true, none) := by
  refine ⟨by decide, by decide⟩

/-- C6 (code defect).  `Commit` has no guard on `writable_`: on the read-only example tx
(no shadow page, watermark 4, buckets page 3, empty log) it succeeds after allocating a
shadow page, moving the watermark to 5 and the buckets page to 4, writing that data page and
writing a meta page, where the claim promises a no-op. -/
theorem c6_read_only_commit_is_not_a_noop :
    (exTx false).writable_ = false ∧
    ((exTx false).tx_handler_.pages_.length, (exTx false).meta_.watermark,
      (exTx false).meta_.buckets, (exTx false).disk_.log.length) = (0, 4, 3, 0) ∧
    ((exTx false).Commit).isOk = true ∧
    ((exTx false).Commit.state?.map (fun t =>
        (t.tx_handler_.pages_.length, t.meta_.watermark, t.meta_.buckets,
          (metaWrites 64 t.disk_.log).length,
          (t.disk_.log.filter (fun op => op != DiskOp.sync && !op.isMetaWrite 64)).length))) =
      some (1, 5, 4, 1, 1) := by
  decide

/-- C7, as stated, fails: with the watermark at `2^64 - 1` and `count = 1` the allocation
succeeds, the page gets the id `2^64 - 1`, and the watermark wraps to 0, which is neither the
old watermark plus one nor above the id of the page. -/
theorem c7_allocate_watermark_wraps :
    2 < exMetaFull.watermark ∧ 1 ≤ 1 ∧
    ∃ sp d1 M1, exDisk.Allocate exMetaFull 1 = Outcome.ok sp (d1, M1) ∧
      sp.page.id = 2 ^ 64 - 1 ∧ sp.page.overflow = 0 ∧ M1.watermark = 0 ∧
      ¬ (M1.watermark = exMetaFull.watermark + 1) ∧
      ¬ (sp.page.id + sp.page.overflow + 1 ≤ M1.watermark) := by
  refine ⟨by decide, by decide, _, _, _, rfl, ?_⟩
  decide

/-- C7, amended.  For a watermark above 2 and `count ≥ 1` such that `watermark + count` fits
64 bits and `count - 1` fits the 32 bit overflow field, `Allocate` does not abort; when it
succeeds it returns a shadow page of exactly `count` physical pages, with overflow
`count - 1` and the old watermark as id, it changes the meta only by setting the watermark to
the old watermark plus `count`, so that the watermark exceeds every page id of the span; and
it succeeds whenever the mapping covers the new extent or the remapping call succeeds. -/
theorem c7_allocate_bumps_watermark (d : DiskHandler) (M : Meta) (count : Nat)
    (hwm : 2 < M.watermark) (hc : 1 ≤ count) (hsum : M.watermark + count < U64)
    (hc32 : count ≤ U32) :
    (∀ sp d1 M1, d.Allocate M count = Outcome.ok sp (d1, M1) →
      sp.npages = count ∧ sp.page.overflow = count - 1 ∧ sp.page.id = M.watermark ∧
      M1 = { M with watermark := M.watermark + count } ∧
      sp.page.id + sp.page.overflow + 1 ≤ M1.watermark) ∧
    d.Allocate M count ≠ Outcome.abort ∧
    ((((M.watermark + count) * d.page_size_) % U64 ≤ d.mmap_size ∨ d.sys.1 = none) →
      (d.Allocate M count).isOk = true) := by
  have hov : (count + U64 - 1) % U64 % U32 = count - 1 := by
    unfold U64 U32 at *
    omega
  refine ⟨?_, ?_, ?_⟩
  · intro sp d1 M1 h
    obtain ⟨_, hsp, hM, _, _, _⟩ := allocate_ok_inv _ _ _ _ _ _ h
    subst hsp hM
    refine ⟨rfl, ?_, rfl, ?_, ?_⟩
    · simp only [Page.SetId, Page.SetOverflow, PageBuffer.GetPage0, hov]
    · simp only [Meta.SetWatermark, Nat.mod_eq_of_lt hsum]
    · simp only [Page.SetId, Page.SetOverflow, PageBuffer.GetPage0, Meta.SetWatermark, hov,
        Nat.mod_eq_of_lt hsum]
      omega
  · unfold DiskHandler.Allocate
    simp only [Meta.GetWatermark, Page.SetId, hwm, not_true_eq_false, if_false]
    split
    · unfold DiskHandler.Mmap
      rcases d.sys with ⟨r, ds⟩
      cases r <;> simp
    · simp
  · intro hcov
    unfold DiskHandler.Allocate
    simp only [Meta.GetWatermark, Page.SetId, hwm, not_true_eq_false, if_false,
      Nat.mod_eq_of_lt hsum]
    split
    · rename_i hlt
      rcases hcov with hcov | hcov
      · omega
      · unfold DiskHandler.Mmap
        rcases hsys : d.sys with ⟨r, ds⟩
        rw [hsys] at hcov
        simp only at hcov
        subst hcov
        simp [Outcome.isOk]
    · simp [Outcome.isOk]

/-- Witness of C7, amended: three pages allocated at the watermark 4. -/
theorem c7_allocate_bumps_watermark_witness :
    (∀ sp d1 M1, exDisk.Allocate exMeta 3 = Outcome.ok sp (d1, M1) →
      sp.npages = 3 ∧ sp.page.overflow = 3 - 1 ∧ sp.page.id = exMeta.watermark ∧
      M1 = { exMeta with watermark := exMeta.watermark + 3 } ∧
      sp.page.id + sp.page.overflow + 1 ≤ M1.watermark) ∧
    exDisk.Allocate exMeta 3 ≠ Outcome.abort ∧
    ((((exMeta.watermark + 3) * exDisk.page_size_) % U64 ≤ exDisk.mmap_size ∨
        exDisk.sys.1 = none) →
      (exDisk.Allocate exMeta 3).isOk = true) :=
  c7_allocate_bumps_watermark exDisk exMeta 3 (by decide) (by decide) (by decide) (by decide)

/-- `Allocate` that returns an error leaves the meta and the log alone. -/
theorem allocate_err_inv (d : DiskHandler) (M : Meta) (count : Nat) (e : Error)
    (d1 : DiskHandler) (M1 : Meta) (h : d.Allocate M count = Outcome.err e (d1, M1)) :
    M1 = M ∧ d1.log = d.log ∧ d1.page_size_ = d.page_size_ ∧ d1.opened_ = d.opened_ := by
  unfold DiskHandler.Allocate at h
  simp only [Meta.GetWatermark, Page.SetId] at h
  split at h
  · cases h
  · split at h
    · unfold DiskHandler.Mmap at h
      have hs := sys_log d
      rcases hsys : d.sys with ⟨r, ds⟩
      rw [hsys] at h hs
      cases r with
      | some e =>
        simp only [Outcome.err.injEq, Prod.mk.injEq] at h
        obtain ⟨h1, h2, h3⟩ := h
        subst h1 h2 h3
        simp at hs
        exact ⟨rfl, hs.1, hs.2.1, hs.2.2.1⟩
      | none => simp at h
    · cases h

/-- `AllocateShadowPage` succeeds exactly when `Allocate` does, and then holds the new page. -/
theorem allocShadow_ok_inv (h : ShadowPageHandler) (d : DiskHandler) (m : Meta) (count : Nat)
    (p : Page) (h1 : ShadowPageHandler) (d1 : DiskHandler) (m1 : Meta)
    (hA : h.AllocateShadowPage d m count = Outcome.ok p (h1, d1, m1)) :
    ∃ sp, d.Allocate m count = Outcome.ok sp (d1, m1) ∧ p = sp.page ∧
      h1 = { h with pages_ := sp :: h.pages_ } := by
  unfold ShadowPageHandler.AllocateShadowPage at hA
  cases hD : d.Allocate m count with
  | abort => rw [hD] at hA; cases hA
  | err e s => obtain ⟨a, b⟩ := s; rw [hD] at hA; cases hA
  | ok sp s =>
    obtain ⟨a, b⟩ := s
    rw [hD] at hA
    simp only [Outcome.ok.injEq, Prod.mk.injEq] at hA
    obtain ⟨h2, h3, h4, h5⟩ := hA
    subst h2 h3 h4 h5
    exact ⟨sp, rfl, rfl, rfl⟩

/-- `AllocateShadowPage` fails exactly when `Allocate` does, and then holds what it held. -/
theorem allocShadow_err_inv (h : ShadowPageHandler) (d : DiskHandler) (m : Meta) (count : Nat)
    (e : Error) (h1 : ShadowPageHandler) (d1 : DiskHandler) (m1 : Meta)
    (hA : h.AllocateShadowPage d m count = Outcome.err e (h1, d1, m1)) :
    d.Allocate m count = Outcome.err e (d1, m1) ∧ h1 = h := by
  unfold ShadowPageHandler.AllocateShadowPage at hA
  cases hD : d.Allocate m count with
  | abort => rw [hD] at hA; cases hA
  | err e s =>
    obtain ⟨a, b⟩ := s
    rw [hD] at hA
    simp only [Outcome.err.injEq, Prod.mk.injEq] at hA
    obtain ⟨h2, h3, h4, h5⟩ := hA
    subst h2 h3 h4 h5
    exact ⟨rfl, rfl⟩
  | ok sp s => obtain ⟨a, b⟩ := s; rw [hD] at hA; cases hA

/-- Whatever `AllocateShadowPage` returns, it writes nothing, keeps the page size and the open
flag, changes the meta at most in its watermark and keeps the shadow pages above the meta
pages. -/
theorem allocShadow_state (h : ShadowPageHandler) (d : DiskHandler) (m : Meta) (count : Nat)
    (h1 : ShadowPageHandler) (d1 : DiskHandler) (m1 : Meta)
    (hs : (h.AllocateShadowPage d m count).state? = some (h1, d1, m1)) :
    d1.log = d.log ∧ d1.page_size_ = d.page_size_ ∧ d1.opened_ = d.opened_ ∧
    m1 = { m with watermark := m1.watermark } ∧ (h.aboveMeta → h1.aboveMeta) := by
  cases hA : h.AllocateShadowPage d m count with
  | abort => rw [hA] at hs; cases hs
  | err e s =>
    obtain ⟨a, b, c⟩ := s
    rw [hA] at hs
    simp only [Outcome.state?, Option.some.injEq, Prod.mk.injEq] at hs
    obtain ⟨h2, h3, h4⟩ := hs
    subst h2 h3 h4
    obtain ⟨hD, hh⟩ := allocShadow_err_inv _ _ _ _ _ _ _ _ hA
    obtain ⟨hm, hl, hp, ho⟩ := allocate_err_inv _ _ _ _ _ _ hD
    subst hm hh
    exact ⟨hl, hp, ho, rfl, id⟩
  | ok p s =>
    obtain ⟨a, b, c⟩ := s
    rw [hA] at hs
    simp only [Outcome.state?, Option.some.injEq, Prod.mk.injEq] at hs
    obtain ⟨h2, h3, h4⟩ := hs
    subst h2 h3 h4
    obtain ⟨sp, hD, hp, hh⟩ := allocShadow_ok_inv _ _ _ _ _ _ _ _ hA
    obtain ⟨hwm, hsp, hm, hl, hps, ho⟩ := allocate_ok_inv _ _ _ _ _ _ hD
    refine ⟨hl, hps, ho, ?_, ?_⟩
    · rw [hm]; rfl
    · intro hinv sp1 hmem
      rw [hh] at hmem
      simp only [List.mem_cons] at hmem
      rcases hmem with hmem | hmem
      · rw [hmem, hsp]; exact hwm
      · exact hinv sp1 hmem

/-- A store through the latest page view keeps the shadow pages above the meta pages when the
stored page keeps its id above them. -/
theorem setLast_aboveMeta (h : ShadowPageHandler) (p : Page) (hp : 2 < p.id)
    (hinv : h.aboveMeta) : (h.setLast p).aboveMeta := by
  unfold ShadowPageHandler.setLast
  cases hpg : h.pages_ with
  | nil => simp [ShadowPageHandler.aboveMeta, hpg]
  | cons sp rest =>
    intro sp1 hmem
    simp only [List.mem_cons] at hmem
    rcases hmem with hmem | hmem
    · rw [hmem]; exact hp
    · apply hinv; rw [hpg]; exact List.mem_cons_of_mem _ hmem

/-- Whatever the walk of `Spill` returns, it writes nothing, keeps the page size and the open
flag, changes the meta at most in its watermark and keeps the shadow pages above the meta
pages. -/
theorem spillNodes_state (ns : List DirtyNode) :
    ∀ (h : ShadowPageHandler) (d : DiskHandler) (m : Meta) (b : Buckets)
      (h1 : ShadowPageHandler) (d1 : DiskHandler) (m1 : Meta) (b1 : Buckets),
      (ShadowPageHandler.SpillNodes ns h d m b).state? = some (h1, d1, m1, b1) →
      d1.log = d.log ∧ d1.page_size_ = d.page_size_ ∧ d1.opened_ = d.opened_ ∧
      m1 = { m with watermark := m1.watermark } ∧ (h.aboveMeta → h1.aboveMeta) := by
  induction ns with
  | nil =>
    intro h d m b h1 d1 m1 b1 hs
    simp only [ShadowPageHandler.SpillNodes, Outcome.state?, Option.some.injEq,
      Prod.mk.injEq] at hs
    obtain ⟨h2, h3, h4, h5⟩ := hs
    subst h2 h3 h4 h5
    exact ⟨rfl, rfl, rfl, rfl, fun hinv => hinv⟩
  | cons n rest ih =>
    intro h d m b h1 d1 m1 b1 hs
    unfold ShadowPageHandler.SpillNodes at hs
    cases hA : h.AllocateShadowPage d m n.npages with
    | abort => rw [hA] at hs; cases hs
    | err e s =>
      obtain ⟨ha, da, ma⟩ := s
      have hst : (h.AllocateShadowPage d m n.npages).state? = some (ha, da, ma) := by
        rw [hA]; rfl
      obtain ⟨hl, hp, ho, hm, hi⟩ := allocShadow_state _ _ _ _ _ _ _ hst
      rw [hA] at hs
      simp only [Outcome.state?, Option.some.injEq, Prod.mk.injEq] at hs
      obtain ⟨h2, h3, h4, h5⟩ := hs
      subst h2 h3 h4 h5
      exact ⟨hl, hp, ho, hm, fun hinv => hi hinv⟩
    | ok p s =>
      obtain ⟨ha, da, ma⟩ := s
      have hst : (h.AllocateShadowPage d m n.npages).state? = some (ha, da, ma) := by
        rw [hA]; rfl
      obtain ⟨hl, hp, ho, hm, hi⟩ := allocShadow_state _ _ _ _ _ _ _ hst
      obtain ⟨sp, hD, hpe, hh⟩ := allocShadow_ok_inv _ _ _ _ _ _ _ _ hA
      obtain ⟨hwm, hsp, _, _, _, _⟩ := allocate_ok_inv _ _ _ _ _ _ hD
      rw [hA] at hs
      simp only at hs
      obtain ⟨hl2, hp2, ho2, hm2, hi2⟩ := ih _ _ _ _ _ _ _ _ hs
      refine ⟨hl2.trans hl, hp2.trans hp, ho2.trans ho, ?_, ?_⟩
      · rw [hm2, hm]
      · intro hinv
        apply hi2
        apply setLast_aboveMeta _ _ _ (hi hinv)
        rw [hpe, hsp]; exact hwm

/-- A disk handler is its own extension by no request. -/
theorem dataExt_refl (d : DiskHandler) : d.dataExt d :=
  ⟨rfl, rfl, [], by simp, rfl⟩

/-- Extensions by data requests compose. -/
theorem dataExt_trans {d d1 d2 : DiskHandler} (h1 : d.dataExt d1) (h2 : d1.dataExt d2) :
    d.dataExt d2 := by
  obtain ⟨hp1, ho1, ops1, hl1, hm1⟩ := h1
  obtain ⟨hp2, ho2, ops2, hl2, hm2⟩ := h2
  refine ⟨hp2.trans hp1, ho2.trans ho1, ops1 ++ ops2, ?_, ?_⟩
  · rw [hl2, hl1, List.append_assoc]
  · rw [hp1] at hm2
    simp only [metaWrites, List.filter_append] at hm1 hm2 ⊢
    rw [hm1, hm2]; rfl

/-- An extension by data requests has the meta writes it started with. -/
theorem dataExt_metaWrites {d d1 : DiskHandler} (h : d.dataExt d1) :
    metaWrites d.page_size_ d1.log = metaWrites d.page_size_ d.log := by
  obtain ⟨_, _, ops, hl, hm⟩ := h
  simp only [metaWrites, List.filter_append] at hm ⊢
  rw [hl, List.filter_append, hm, List.append_nil]

/-- Equal logs, page sizes and open flags make an extension. -/
theorem dataExt_of_eq {d d1 : DiskHandler} (hl : d1.log = d.log)
    (hp : d1.page_size_ = d.page_size_) (ho : d1.opened_ = d.opened_) : d.dataExt d1 :=
  ⟨hp, ho, [], by simp [hl], rfl⟩

/-- `Sync` appends one `fsync` to the log. -/
theorem sync_inv (d : DiskHandler) :
    d.Sync.2.log = d.log ++ [DiskOp.sync] ∧ d.Sync.2.page_size_ = d.page_size_ ∧
      d.Sync.2.opened_ = d.opened_ := by
  have hs := sys_log d
  unfold DiskHandler.Sync
  rcases hsys : d.sys with ⟨r, ds⟩
  rw [hsys] at hs
  simp only at hs ⊢
  exact ⟨by rw [hs.1], hs.2.1, hs.2.2.1⟩

/-- `WriteRaw` appends the write and, when the write went through, one `fsync`. -/
theorem writeRaw_inv (d : DiskHandler) (data : Page) (size offset : Nat) :
    (d.WriteRaw data size offset).2.page_size_ = d.page_size_ ∧
    (d.WriteRaw data size offset).2.opened_ = d.opened_ ∧
    (((d.WriteRaw data size offset).1 = none ∧
        (d.WriteRaw data size offset).2.log =
          d.log ++ [DiskOp.write offset size data, DiskOp.sync]) ∨
      ((d.WriteRaw data size offset).1 ≠ none ∧
        ((d.WriteRaw data size offset).2.log = d.log ++ [DiskOp.write offset size data] ∨
          (d.WriteRaw data size offset).2.log =
            d.log ++ [DiskOp.write offset size data, DiskOp.sync]))) := by
  have hs := sys_log d
  unfold DiskHandler.WriteRaw
  rcases hsys : d.sys with ⟨r, ds⟩
  rw [hsys] at hs
  simp only at hs
  cases r with
  | some e =>
    simp only
    refine ⟨hs.2.1, hs.2.2.1, Or.inr ⟨by simp, Or.inl (by rw [hs.1])⟩⟩
  | none =>
    simp only
    have hy := sync_inv { ds with log := ds.log ++ [DiskOp.write offset size data] }
    simp only at hy
    refine ⟨hy.2.1.trans hs.2.1, hy.2.2.trans hs.2.2.1, ?_⟩
    have hlog : (DiskHandler.Sync { ds with log := ds.log ++ [DiskOp.write offset size data] }).2.log
        = d.log ++ [DiskOp.write offset size data, DiskOp.sync] := by
      rw [hy.1, hs.1]; simp
    cases hr : (DiskHandler.Sync { ds with log := ds.log ++ [DiskOp.write offset size data] }).1 with
    | none => exact Or.inl ⟨rfl, hlog⟩
    | some e => exact Or.inr ⟨by simp, Or.inr hlog⟩

/-- A `WritePage` that returns has appended the write of its page, followed by at most one
`fsync`; when it succeeds the `fsync` is there. -/
theorem writePage_inv (d : DiskHandler) (p : Page) (d1 : DiskHandler)
    (h : (d.WritePage p).state? = some d1) :
    d1.page_size_ = d.page_size_ ∧ d1.opened_ = d.opened_ ∧ d.opened_ = true ∧
    (d1.log = d.log ++ [DiskOp.write ((p.id * d.page_size_) % U64)
        (((p.overflow + 1) * d.page_size_) % U64) p] ∨
     d1.log = d.log ++ [DiskOp.write ((p.id * d.page_size_) % U64)
        (((p.overflow + 1) * d.page_size_) % U64) p, DiskOp.sync]) ∧
    ((d.WritePage p).isOk = true →
      d1.log = d.log ++ [DiskOp.write ((p.id * d.page_size_) % U64)
        (((p.overflow + 1) * d.page_size_) % U64) p, DiskOp.sync]) := by
  unfold DiskHandler.WritePage DiskHandler.PageSize at h ⊢
  by_cases ho : d.opened_ = true
  · simp only [ho, if_true] at h ⊢
    have hw := writeRaw_inv d p (((p.overflow + 1) * d.page_size_) % U64)
      ((p.id * d.page_size_) % U64)
    rcases hW : d.WriteRaw p (((p.overflow + 1) * d.page_size_) % U64)
      ((p.id * d.page_size_) % U64) with ⟨r, dw⟩
    rw [hW] at h hw
    simp only at hw
    cases r with
    | some e =>
      simp only [Outcome.state?, Option.some.injEq] at h
      subst h
      obtain ⟨hp, hop, hl⟩ := hw
      rcases hl with ⟨hne, _⟩ | ⟨_, hl⟩
      · simp at hne
      · exact ⟨hp, hop.trans ho, trivial, hl, by simp [Outcome.isOk]⟩
    | none =>
      simp only [Outcome.state?, Option.some.injEq] at h
      subst h
      obtain ⟨hp, hop, hl⟩ := hw
      rcases hl with ⟨_, hl⟩ | ⟨hne, _⟩
      · exact ⟨hp, hop.trans ho, trivial, Or.inr hl, fun _ => hl⟩
      · simp at hne
  · simp [ho, Outcome.state?] at h

/-- A `WritePage` of a page that lies above the meta pages, at a byte offset below `2^64`,
writes no byte of a meta page. -/
theorem writePage_dataExt (d : DiskHandler) (p : Page) (d1 : DiskHandler) (hp : 2 < p.id)
    (hfile : p.id * d.page_size_ < U64)
    (h : (d.WritePage p).state? = some d1) : d.dataExt d1 := by
  obtain ⟨hps, ho, _, hl, _⟩ := writePage_inv d p d1 h
  have hoff : ¬ ((p.id * d.page_size_) % U64 < 2 * d.page_size_) := by
    rw [Nat.mod_eq_of_lt hfile]
    have : 2 * d.page_size_ ≤ p.id * d.page_size_ := Nat.mul_le_mul_right _ (by omega)
    omega
  rcases hl with hl | hl
  · exact ⟨hps, ho, _, hl, by simp [metaWrites, DiskOp.isMetaWrite, hoff]⟩
  · exact ⟨hps, ho, _, hl, by simp [metaWrites, DiskOp.isMetaWrite, hoff]⟩

/-- Writing shadow pages that lie above the meta pages, at byte offsets below `2^64`, writes
no byte of a meta page. -/
theorem writePages_dataExt (l : List ShadowPage) :
    ∀ (d d1 : DiskHandler), (∀ sp ∈ l, 2 < sp.page.id ∧ sp.page.id * d.page_size_ < U64) →
      (ShadowPageHandler.WritePages l d).state? = some d1 → d.dataExt d1 := by
  induction l with
  | nil =>
    intro d d1 _ h
    simp only [ShadowPageHandler.WritePages, Outcome.state?, Option.some.injEq] at h
    subst h
    exact dataExt_refl d
  | cons sp rest ih =>
    intro d d1 hall h
    unfold ShadowPageHandler.WritePages at h
    obtain ⟨hsp, hfile⟩ := hall sp (List.mem_cons_self _ _)
    cases hW : d.WritePage sp.page with
    | abort => rw [hW] at h; cases h
    | err e dw =>
      have hst : (d.WritePage sp.page).state? = some dw := by rw [hW]; rfl
      rw [hW] at h
      simp only [Outcome.state?, Option.some.injEq] at h
      subst h
      exact writePage_dataExt d sp.page _ hsp hfile hst
    | ok a dw =>
      have hst : (d.WritePage sp.page).state? = some dw := by rw [hW]; rfl
      have hext := writePage_dataExt d sp.page _ hsp hfile hst
      rw [hW] at h
      simp only at h
      exact dataExt_trans hext
        (ih dw d1 (fun s hs => by rw [hext.1]; exact hall s (List.mem_cons_of_mem _ hs)) h)

/-- `WriteDirtyPages` of a handler whose shadow pages lie above the meta pages, at byte
offsets below `2^64`, writes no byte of a meta page. -/
theorem writeDirtyPages_dataExt (h : ShadowPageHandler) (d d1 : DiskHandler)
    (hinv : h.aboveMeta) (hfile : h.inFile d.page_size_)
    (hs : (h.WriteDirtyPages d).state? = some d1) : d.dataExt d1 := by
  unfold ShadowPageHandler.WriteDirtyPages at hs
  have hall : ∀ sp ∈ h.pages_.reverse, 2 < sp.page.id ∧ sp.page.id * d.page_size_ < U64 := by
    intro sp hsp
    exact ⟨hinv sp (List.mem_reverse.mp hsp), hfile sp (List.mem_reverse.mp hsp)⟩
  cases hW : ShadowPageHandler.WritePages h.pages_.reverse d with
  | abort => rw [hW] at hs; cases hs
  | err e dw =>
    have hst : (ShadowPageHandler.WritePages h.pages_.reverse d).state? = some dw := by
      rw [hW]; rfl
    rw [hW] at hs
    simp only [Outcome.state?, Option.some.injEq] at hs
    subst hs
    exact writePages_dataExt _ _ _ hall hst
  | ok a dw =>
    have hst : (ShadowPageHandler.WritePages h.pages_.reverse d).state? = some dw := by
      rw [hW]; rfl
    have hext := writePages_dataExt _ _ _ hall hst
    rw [hW] at hs
    simp only at hs
    have hy := sync_inv dw
    have hd1 : d1 = dw.Sync.2 := by
      rcases hS : dw.Sync with ⟨r, ds⟩
      rw [hS] at hs
      cases r <;> simp [Outcome.state?] at hs <;> simp [hs]
    rw [hd1]
    exact dataExt_trans hext ⟨hy.2.1, hy.2.2, _, hy.1, by simp [metaWrites, DiskOp.isMetaWrite]⟩

/-- `WriteBytes` changes the body and the cursor only. -/
theorem writeBytes_header (s : Serializer) (P : Nat) (bs : List Byte) (s1 : Serializer)
    (h : s.WriteBytes P bs = some s1) :
    s1.p.id = s.p.id ∧ s1.p.overflow = s.p.overflow ∧ s1.p.count = s.p.count ∧
      s1.p.flags = s.p.flags := by
  unfold Serializer.WriteBytes at h
  split at h
  · simp only [Option.some.injEq] at h
    subst h
    exact ⟨rfl, rfl, rfl, rfl⟩
  · cases h

/-- The loop of `Buckets::Write` changes the body and the cursor only. -/
theorem writeLoop_header (P : Nat) (es : List (Name × BucketMeta)) :
    ∀ (s s1 : Serializer), Buckets.WriteLoop P es s = some s1 →
      s1.p.id = s.p.id ∧ s1.p.overflow = s.p.overflow ∧ s1.p.count = s.p.count ∧
        s1.p.flags = s.p.flags := by
  induction es with
  | nil =>
    intro s s1 h
    simp only [Buckets.WriteLoop, Option.some.injEq] at h
    subst h
    exact ⟨rfl, rfl, rfl, rfl⟩
  | cons e rest ih =>
    intro s s1 h
    obtain ⟨name, b⟩ := e
    unfold Buckets.WriteLoop at h
    cases h1 : s.WriteString P name with
    | none => rw [h1] at h; cases h
    | some sa =>
      rw [h1] at h
      simp only at h
      cases h2 : sa.WriteU64 P b.AutoId with
      | none => rw [h2] at h; cases h
      | some sb =>
        rw [h2] at h
        simp only at h
        cases h3 : sb.WriteU64 P b.Root with
        | none => rw [h3] at h; cases h
        | some sc =>
          rw [h3] at h
          simp only at h
          obtain ⟨a1, a2, a3, a4⟩ := writeBytes_header _ _ _ _ h1
          obtain ⟨b1, b2, b3, b4⟩ := writeBytes_header _ _ _ _ h2
          obtain ⟨c1, c2, c3, c4⟩ := writeBytes_header _ _ _ _ h3
          obtain ⟨e1, e2, e3, e4⟩ := ih sc s1 h
          exact ⟨e1.trans (c1.trans (b1.trans a1)), e2.trans (c2.trans (b2.trans a2)),
            e3.trans (c3.trans (b3.trans a3)), e4.trans (c4.trans (b4.trans a4))⟩

/-- `Buckets::Write` keeps the id, the overflow and the flags of the page and sets its
count. -/
theorem buckets_write_header (b : Buckets) (p : Page) (P : Nat) (p1 : Page)
    (h : b.Write p P = some p1) :
    p1.id = p.id ∧ p1.overflow = p.overflow ∧ p1.count = b.buckets_.length % U16 ∧
      p1.flags = p.flags := by
  unfold Buckets.Write at h
  simp only at h
  cases hL : Buckets.WriteLoop P b.buckets_ { p := p.SetCount b.buckets_.length, pos := 0 } with
  | none => rw [hL] at h; cases h
  | some s =>
    rw [hL] at h
    simp only [Option.some.injEq] at h
    subst h
    obtain ⟨h1, h2, h3, h4⟩ := writeLoop_header _ _ _ _ hL
    exact ⟨h1, h2, h3, h4⟩

/-- A `WriteMeta` that returns has appended to the log and changed nothing else of the tx. -/
theorem writeMeta_state (tx tx1 : Tx) (h : tx.WriteMeta.state? = some tx1) :
    tx1 = { tx with disk_ := tx1.disk_ } ∧ tx1.disk_.page_size_ = tx.disk_.page_size_ ∧
      ∃ ops, tx1.disk_.log = tx.disk_.log ++ ops := by
  unfold Tx.WriteMeta at h
  cases hP : tx.disk_.PageSize with
  | none => rw [hP] at h; cases h
  | some P =>
    rw [hP] at h
    simp only at h
    cases hW : tx.disk_.WritePage (tx.meta_.Write (PageBuffer.GetPage0 1 P)) with
    | abort => rw [hW] at h; cases h
    | err e dw =>
      have hst : (tx.disk_.WritePage (tx.meta_.Write (PageBuffer.GetPage0 1 P))).state?
          = some dw := by rw [hW]; rfl
      obtain ⟨hps, _, _, hl, _⟩ := writePage_inv _ _ _ hst
      rw [hW] at h
      simp only [Outcome.state?, Option.some.injEq] at h
      subst h
      refine ⟨rfl, hps, ?_⟩
      rcases hl with hl | hl
      · exact ⟨_, hl⟩
      · exact ⟨_, hl⟩
    | ok a dw =>
      have hst : (tx.disk_.WritePage (tx.meta_.Write (PageBuffer.GetPage0 1 P))).state?
          = some dw := by rw [hW]; rfl
      obtain ⟨hps, _, _, hl, _⟩ := writePage_inv _ _ _ hst
      have hy := sync_inv dw
      rw [hW] at h
      simp only at h
      have hrest : ∃ ops, dw.Sync.2.log = tx.disk_.log ++ ops := by
        rcases hl with hl | hl
        · exact ⟨_, by rw [hy.1, hl, List.append_assoc]⟩
        · exact ⟨_, by rw [hy.1, hl, List.append_assoc]⟩
      rcases hS : dw.Sync with ⟨r, ds⟩
      rw [hS] at h hy hrest
      simp only at hy hrest
      cases r with
      | some e =>
        simp only [Outcome.state?, Option.some.injEq] at h
        subst h
        exact ⟨rfl, hy.2.1.trans hps, hrest⟩
      | none =>
        simp only [Outcome.state?, Option.some.injEq] at h
        subst h
        exact ⟨rfl, hy.2.1.trans hps, hrest⟩

/-- A successful `WriteMeta` has appended the write of the page that `Meta::Write` filled from
the meta of the tx, and two `fsync`s, and changed nothing else of the tx. -/
theorem writeMeta_ok_inv (tx tx1 : Tx) (h : tx.WriteMeta = Outcome.ok () tx1) :
    tx1 = { tx with disk_ := tx1.disk_ } ∧
    tx1.disk_.log = tx.disk_.log ++
      [DiskOp.write (((tx.meta_.txid % 2) * tx.disk_.page_size_) % U64)
          (((0 + 1) * tx.disk_.page_size_) % U64)
          (tx.meta_.Write (PageBuffer.GetPage0 1 tx.disk_.page_size_)),
        DiskOp.sync, DiskOp.sync] := by
  have hst : tx.WriteMeta.state? = some tx1 := by rw [h]; rfl
  refine ⟨(writeMeta_state tx tx1 hst).1, ?_⟩
  unfold Tx.WriteMeta at h
  cases hP : tx.disk_.PageSize with
  | none => rw [hP] at h; cases h
  | some P =>
    have hPe : P = tx.disk_.page_size_ := by
      unfold DiskHandler.PageSize at hP
      split at hP
      · simp only [Option.some.injEq] at hP; exact hP.symm
      · cases hP
    subst hPe
    rw [hP] at h
    simp only at h
    cases hW : tx.disk_.WritePage (tx.meta_.Write (PageBuffer.GetPage0 1 tx.disk_.page_size_)) with
    | abort => rw [hW] at h; cases h
    | err e dw => rw [hW] at h; cases h
    | ok a dw =>
      have hst2 : (tx.disk_.WritePage
          (tx.meta_.Write (PageBuffer.GetPage0 1 tx.disk_.page_size_))).state? = some dw := by
        rw [hW]; rfl
      obtain ⟨_, _, _, _, hl⟩ := writePage_inv _ _ _ hst2
      have hl2 := hl (by rw [hW]; rfl)
      have hy := sync_inv dw
      rw [hW] at h
      simp only at h
      rcases hS : dw.Sync with ⟨r, ds⟩
      rw [hS] at h hy
      simp only at hy
      cases r with
      | some e => cases h
      | none =>
        simp only [Outcome.ok.injEq, true_and] at h
        subst h
        simp only
        rw [hy.1, hl2]
        simp [Meta.Write, PageBuffer.GetPage0]

/-- The paths through `Commit` that return: an error of `Spill`, of the allocation of the
buckets page or of `WriteDirtyPages` is returned as it is; otherwise `Commit` ends with
`WriteMeta`. -/
theorem commit_cases (tx tx1 : Tx) (hs : tx.Commit.state? = some tx1) :
    (∃ e h0 d0 m0 b,
      tx.tx_handler_.Spill tx.disk_ tx.meta_ tx.buckets_ = Outcome.err e (h0, d0, m0, b) ∧
      tx.Commit = Outcome.err e
        { tx with tx_handler_ := h0, disk_ := d0, meta_ := m0, buckets_ := b }) ∨
    (∃ h0 d0 m0 b P,
      tx.tx_handler_.Spill tx.disk_ tx.meta_ tx.buckets_ = Outcome.ok () (h0, d0, m0, b) ∧
      d0.PageSize = some P ∧ P ≠ 0 ∧
      ((∃ e h1 d1 m1,
        h0.AllocateShadowPage d0 m0 (Tx.bucketsPageCount b.GetStorageSize P) =
          Outcome.err e (h1, d1, m1) ∧
        tx.Commit = Outcome.err e
          { tx with tx_handler_ := h1, disk_ := d1, meta_ := m1, buckets_ := b }) ∨
      (∃ p h1 d1 m1 p1,
        h0.AllocateShadowPage d0 m0 (Tx.bucketsPageCount b.GetStorageSize P) =
          Outcome.ok p (h1, d1, m1) ∧
        b.Write p P = some p1 ∧
        ((∃ e d2, (h1.setLast p1).WriteDirtyPages d1 = Outcome.err e d2 ∧
          tx.Commit = Outcome.err e
            { tx with tx_handler_ := h1.setLast p1, disk_ := d2,
                      meta_ := m1.SetBuckets p1.id, buckets_ := b }) ∨
        (∃ d2, (h1.setLast p1).WriteDirtyPages d1 = Outcome.ok () d2 ∧
          tx.Commit = Tx.WriteMeta
            { tx with tx_handler_ := h1.setLast p1, disk_ := d2,
                      meta_ := m1.SetBuckets p1.id, buckets_ := b }))))) := by
  unfold Tx.Commit at hs ⊢
  cases hS : tx.tx_handler_.Spill tx.disk_ tx.meta_ tx.buckets_ with
  | abort => rw [hS] at hs; cases hs
  | err e s =>
    obtain ⟨h0, d0, m0, b⟩ := s
    exact Or.inl ⟨e, h0, d0, m0, b, rfl, rfl⟩
  | ok a s =>
    obtain ⟨h0, d0, m0, b⟩ := s
    rw [hS] at hs
    simp only at hs ⊢
    cases hP : d0.PageSize with
    | none => rw [hP] at hs; cases hs
    | some P =>
      rw [hP] at hs
      simp only at hs ⊢
      by_cases hP0 : P = 0
      · simp [hP0, Outcome.state?] at hs
      · simp only [hP0, if_false] at hs ⊢
        refine Or.inr ⟨h0, d0, m0, b, P, rfl, hP, hP0, ?_⟩
        cases hA : h0.AllocateShadowPage d0 m0 (Tx.bucketsPageCount b.GetStorageSize P) with
        | abort => rw [hA] at hs; cases hs
        | err e s =>
          obtain ⟨h1, d1, m1⟩ := s
          exact Or.inl ⟨e, h1, d1, m1, rfl, rfl⟩
        | ok p s =>
          obtain ⟨h1, d1, m1⟩ := s
          rw [hA] at hs
          simp only at hs ⊢
          cases hW : b.Write p P with
          | none => rw [hW] at hs; cases hs
          | some p1 =>
            rw [hW] at hs
            simp only at hs ⊢
            refine Or.inr ⟨p, h1, d1, m1, p1, rfl, hW, ?_⟩
            cases hD : (h1.setLast p1).WriteDirtyPages d1 with
            | abort => rw [hD] at hs; cases hs
            | err e d2 => exact Or.inl ⟨e, d2, rfl, rfl⟩
            | ok a d2 => exact Or.inr ⟨d2, rfl, rfl⟩

/-- What `Spill` leaves behind, whatever it returns. -/
theorem spill_state (h : ShadowPageHandler) (d : DiskHandler) (m : Meta) (b : Buckets)
    (h1 : ShadowPageHandler) (d1 : DiskHandler) (m1 : Meta) (b1 : Buckets)
    (hs : (h.Spill d m b).state? = some (h1, d1, m1, b1)) :
    d1.log = d.log ∧ d1.page_size_ = d.page_size_ ∧ d1.opened_ = d.opened_ ∧
    m1 = { m with watermark := m1.watermark } ∧ (h.aboveMeta → h1.aboveMeta) :=
  spillNodes_state h.dirty_ h d m b h1 d1 m1 b1 hs

/-- `PageSize` answers the page size of the handler. -/
theorem pageSize_eq (d : DiskHandler) (P : Nat) (h : d.PageSize = some P) :
    P = d.page_size_ := by
  unfold DiskHandler.PageSize at h
  split at h
  · simp only [Option.some.injEq] at h; exact h.symm
  · cases h

/-- The state in which `Commit` calls `WriteDirtyPages`: nothing has been written yet, the
page size is the one of the tx, the shadow pages lie above the meta pages, the latest of them
is the buckets page, and the meta differs from the one of the tx in its watermark and buckets
page only. -/
theorem commit_before_write (tx : Tx) (h0 : ShadowPageHandler) (d0 : DiskHandler) (m0 : Meta)
    (b : Buckets) (P : Nat) (p : Page) (h1 : ShadowPageHandler) (d1 : DiskHandler) (m1 : Meta)
    (p1 : Page)
    (hS : tx.tx_handler_.Spill tx.disk_ tx.meta_ tx.buckets_ = Outcome.ok () (h0, d0, m0, b))
    (hP : d0.PageSize = some P)
    (hA : h0.AllocateShadowPage d0 m0 (Tx.bucketsPageCount b.GetStorageSize P) =
      Outcome.ok p (h1, d1, m1))
    (hW : b.Write p P = some p1) :
    d1.log = tx.disk_.log ∧ d1.page_size_ = tx.disk_.page_size_ ∧ P = tx.disk_.page_size_ ∧
    (tx.tx_handler_.aboveMeta → (h1.setLast p1).aboveMeta) ∧
    (∃ sp rest, (h1.setLast p1).pages_ = sp :: rest ∧ sp.page = p1 ∧
      sp.npages = Tx.bucketsPageCount b.GetStorageSize P) ∧
    m1.SetBuckets p1.id =
      { tx.meta_ with watermark := m1.watermark, buckets := p1.id } := by
  have hS1 : (tx.tx_handler_.Spill tx.disk_ tx.meta_ tx.buckets_).state? =
      some (h0, d0, m0, b) := by rw [hS]; rfl
  obtain ⟨hl0, hp0, _, hm0, hi0⟩ := spill_state _ _ _ _ _ _ _ _ hS1
  have hA1 : (h0.AllocateShadowPage d0 m0 (Tx.bucketsPageCount b.GetStorageSize P)).state? =
      some (h1, d1, m1) := by rw [hA]; rfl
  obtain ⟨hl1, hp1, _, hm1, hi1⟩ := allocShadow_state _ _ _ _ _ _ _ hA1
  obtain ⟨sp, hD, hpe, hh⟩ := allocShadow_ok_inv _ _ _ _ _ _ _ _ hA
  obtain ⟨hwm, hsp, _, _, _, _⟩ := allocate_ok_inv _ _ _ _ _ _ hD
  obtain ⟨hid, _, _, _⟩ := buckets_write_header _ _ _ _ hW
  have hPe := pageSize_eq _ _ hP
  refine ⟨hl1.trans hl0, hp1.trans hp0, hPe.trans hp0, ?_, ?_, ?_⟩
  · intro hinv
    apply setLast_aboveMeta _ _ _ (hi1 (hi0 hinv))
    rw [hid, hpe, hsp]; exact hwm
  · refine ⟨{ sp with page := p1 }, h0.pages_, ?_, rfl, ?_⟩
    · rw [hh]; rfl
    · rw [hsp]
  · rw [hm1, hm0]; rfl

/-- `Rollback` changes nothing, and a `Commit` that returns leaves `open_` as it was: no
operation of `Tx` ever closes the tx. -/
theorem rollback_commit_keep_open (tx : Tx) :
    Tx.Rollback tx = tx ∧ ∀ tx1, tx.Commit.state? = some tx1 → tx1.open_ = tx.open_ := by
  refine ⟨rfl, ?_⟩
  intro tx1 hs
  rcases commit_cases tx tx1 hs with
    ⟨e, h0, d0, m0, b, _, hC⟩ | ⟨h0, d0, m0, b, P, _, _, _, hrest⟩
  · rw [hC] at hs
    simp only [Outcome.state?, Option.some.injEq] at hs
    subst hs; rfl
  · rcases hrest with ⟨e, h1, d1, m1, _, hC⟩ | ⟨p, h1, d1, m1, p1, _, _, hrest⟩
    · rw [hC] at hs
      simp only [Outcome.state?, Option.some.injEq] at hs
      subst hs; rfl
    · rcases hrest with ⟨e, d2, _, hC⟩ | ⟨d2, _, hC⟩
      · rw [hC] at hs
        simp only [Outcome.state?, Option.some.injEq] at hs
        subst hs; rfl
      · rw [hC] at hs
        obtain ⟨htx, _, _⟩ := writeMeta_state _ _ hs
        rw [htx]

/-- A successful `WriteDirtyPages` ends with an `fsync`. -/
theorem writeDirtyPages_ok_sync (h : ShadowPageHandler) (d d1 : DiskHandler)
    (hD : h.WriteDirtyPages d = Outcome.ok () d1) :
    ∃ pre, d1.log = pre ++ [DiskOp.sync] := by
  unfold ShadowPageHandler.WriteDirtyPages at hD
  cases hW : ShadowPageHandler.WritePages h.pages_.reverse d with
  | abort => rw [hW] at hD; cases hD
  | err e dw => rw [hW] at hD; cases hD
  | ok a dw =>
    rw [hW] at hD
    simp only at hD
    have hy := sync_inv dw
    rcases hS : dw.Sync with ⟨r, ds⟩
    rw [hS] at hD hy
    cases r with
    | some e => cases hD
    | none =>
      simp only [Outcome.ok.injEq, true_and] at hD
      subst hD
      exact ⟨dw.log, hy.1⟩

/-- The example tx `exTxDirty` is the writable example tx after `CreateBucket("b")`, but for
the script of the disk. -/
theorem exTxDirty_eq :
    exTxWithBucket.map (fun t =>
      { t with disk_ := { t.disk_ with faults := [some (Error.mk "disk full")] } }) =
      some exTxDirty := by
  decide

/-- The writes of `WriteDirtyPages` keep the page size. -/
theorem writePages_page_size (l : List ShadowPage) :
    ∀ (d d1 : DiskHandler), (ShadowPageHandler.WritePages l d).state? = some d1 →
      d1.page_size_ = d.page_size_ := by
  induction l with
  | nil =>
    intro d d1 h
    simp only [ShadowPageHandler.WritePages, Outcome.state?, Option.some.injEq] at h
    rw [h]
  | cons s rs ih =>
    intro d d1 h
    unfold ShadowPageHandler.WritePages at h
    cases hq : d.WritePage s.page with
    | abort => rw [hq] at h; cases h
    | err e dq =>
      have hst : (d.WritePage s.page).state? = some dq := by rw [hq]; rfl
      rw [hq] at h
      simp only [Outcome.state?, Option.some.injEq] at h
      subst h
      exact (writePage_inv _ _ _ hst).1
    | ok a dq =>
      have hst : (d.WritePage s.page).state? = some dq := by rw [hq]; rfl
      rw [hq] at h
      simp only at h
      exact (ih dq d1 h).trans (writePage_inv _ _ _ hst).1

/-- `WriteDirtyPages` keeps the page size. -/
theorem writeDirtyPages_page_size (h : ShadowPageHandler) (d d1 : DiskHandler)
    (hs : (h.WriteDirtyPages d).state? = some d1) : d1.page_size_ = d.page_size_ := by
  unfold ShadowPageHandler.WriteDirtyPages at hs
  cases hW : ShadowPageHandler.WritePages h.pages_.reverse d with
  | abort => rw [hW] at hs; cases hs
  | err e dw =>
    have hst : (ShadowPageHandler.WritePages h.pages_.reverse d).state? = some dw := by
      rw [hW]; rfl
    rw [hW] at hs
    simp only [Outcome.state?, Option.some.injEq] at hs
    subst hs
    exact writePages_page_size _ _ _ hst
  | ok a dw =>
    have hst : (ShadowPageHandler.WritePages h.pages_.reverse d).state? = some dw := by
      rw [hW]; rfl
    rw [hW] at hs
    simp only at hs
    have hy := sync_inv dw
    have hd1 : d1 = dw.Sync.2 := by
      rcases hS : dw.Sync with ⟨r, ds⟩
      rw [hS] at hs
      cases r <;> simp [Outcome.state?] at hs <;> simp [hs]
    rw [hd1, hy.2.1]
    exact writePages_page_size _ _ _ hst

/-- What a successful `Commit` leaves: the latest shadow page is the buckets page, of
`bucketsPageCount` physical pages; the meta differs from the one of the tx in its watermark
and buckets page only; the log ends with the write of the page `Meta::Write` filled from that
meta, and two `fsync`s. -/
theorem commit_ok_inv (tx tx1 : Tx) (h : tx.Commit = Outcome.ok () tx1) :
    tx.disk_.page_size_ ≠ 0 ∧
    (∃ sp rest, tx1.tx_handler_.pages_ = sp :: rest ∧ sp.page.id = tx1.meta_.buckets ∧
      sp.npages = Tx.bucketsPageCount tx1.buckets_.GetStorageSize tx.disk_.page_size_) ∧
    tx1.meta_ = { tx.meta_ with watermark := tx1.meta_.watermark,
                                buckets := tx1.meta_.buckets } ∧
    ∃ pre, tx1.disk_.log = pre ++
      [DiskOp.write (((tx1.meta_.txid % 2) * tx.disk_.page_size_) % U64)
          (((0 + 1) * tx.disk_.page_size_) % U64)
          (tx1.meta_.Write (PageBuffer.GetPage0 1 tx.disk_.page_size_)),
        DiskOp.sync, DiskOp.sync] := by
  have hs : tx.Commit.state? = some tx1 := by rw [h]; rfl
  rcases commit_cases tx tx1 hs with
    ⟨e, h0, d0, m0, b, _, hC⟩ | ⟨h0, d0, m0, b, P, hS, hP, hP0, hrest⟩
  · rw [hC] at h; cases h
  · rcases hrest with ⟨e, h1, d1, m1, _, hC⟩ | ⟨p, h1, d1, m1, p1, hA, hW, hrest⟩
    · rw [hC] at h; cases h
    · rcases hrest with ⟨e, d2, _, hC⟩ | ⟨d2, hD, hC⟩
      · rw [hC] at h; cases h
      · obtain ⟨_, hp1, hPe, _, ⟨sp, rest, hpg, hsp, hn⟩, hm⟩ :=
          commit_before_write tx h0 d0 m0 b P p h1 d1 m1 p1 hS hP hA hW
        have hD1 : ((h1.setLast p1).WriteDirtyPages d1).state? = some d2 := by
          rw [hD]; rfl
        have hps2 : d2.page_size_ = tx.disk_.page_size_ :=
          (writeDirtyPages_page_size _ _ _ hD1).trans hp1
        rw [hC] at h
        obtain ⟨htx, hlog⟩ := writeMeta_ok_inv _ _ h
        rw [htx]
        simp only at hlog ⊢
        rw [hps2] at hlog
        refine ⟨by rw [← hPe]; exact hP0, ⟨sp, rest, hpg, ?_, ?_⟩, ?_, ⟨d2.log, ?_⟩⟩
        · rw [hsp]; rfl
        · rw [hn, hPe]
        · rw [hm]
        · rw [hlog, hm]

/-- Rounding up and rounding down: `floor(S / P) + 1` is `ceil(S / P) + 1` when `P` divides
`S` and `ceil(S / P)` when it does not. -/
theorem floor_succ_vs_ceil (S P : Nat) (hP : 0 < P) :
    (P ∣ S → S / P + 1 = ceilDiv S P + 1) ∧ (¬ P ∣ S → S / P + 1 = ceilDiv S P) := by
  unfold ceilDiv
  have hdm := Nat.div_add_mod S P
  have hr := Nat.mod_lt S hP
  have hdvd_iff : P ∣ S ↔ S % P = 0 := Nat.dvd_iff_mod_eq_zero
  rw [hdvd_iff]
  generalize S / P = k at hdm ⊢
  generalize S % P = r at hdm hr ⊢
  subst hdm
  constructor
  · intro h0
    subst h0
    have h1 : P * k + 0 + P - 1 = P * k + (P - 1) := by omega
    rw [h1, Nat.mul_add_div hP, Nat.div_eq_of_lt (by omega)]
  · intro h0
    have h1 : P * k + r + P - 1 = P * (k + 1) + (r - 1) := by
      rw [Nat.mul_add, Nat.mul_one]; omega
    rw [h1, Nat.mul_add_div hP, Nat.div_eq_of_lt (by omega)]

/-- C8, as stated, fails: `Commit` asks for `floor(S / P) + 1` pages, which is 2 for
`S = P = 4096` where `ceil(S / P)` is 1, and 1 for `S = 0` where `ceil(S / P)` is 0.  Run on
a registry of 64 serialized bytes over 64 byte pages, `Commit` succeeds after allocating a
buckets page of 2 physical pages (overflow 1), where `ceil(64 / 64)` is 1. -/
theorem c8_buckets_page_is_not_ceil :
    (Tx.bucketsPageCount 4096 4096 = 2 ∧ ceilDiv 4096 4096 = 1) ∧
    (Tx.bucketsPageCount 0 4096 = 1 ∧ ceilDiv 0 4096 = 0) ∧
    exTxAligned.buckets_.GetStorageSize = 64 ∧ exTxAligned.disk_.page_size_ = 64 ∧
    ceilDiv 64 64 = 1 ∧
    exTxAligned.Commit.isOk = true ∧
    exTxAligned.Commit.state?.map (fun t =>
      (t.buckets_.GetStorageSize,
        t.tx_handler_.pages_.head?.map (fun sp =>
          (sp.npages, sp.page.overflow, decide (sp.page.id = t.meta_.buckets))))) =
      some (64, some (2, 1, true)) := by
  refine ⟨by decide, by decide, by decide, by decide, by decide, by decide, by decide⟩

/-- C8, amended.  The number of pages `Commit` asks for the buckets page is
`floor(S / P) + 1` (when that fits 64 bits): one more than `ceil(S / P)` when `P` divides
`S`, and `ceil(S / P)` otherwise; and after every successful `Commit` the latest shadow page
is the buckets page named by the meta, spanning exactly that number of physical pages, for
`S` the serialized size of the registry and `P` the page size of the disk. -/
theorem c8_buckets_page_span :
    (∀ S P : Nat, 0 < P → S / P + 1 < U64 →
      Tx.bucketsPageCount S P = S / P + 1 ∧
      (P ∣ S → Tx.bucketsPageCount S P = ceilDiv S P + 1) ∧
      (¬ P ∣ S → Tx.bucketsPageCount S P = ceilDiv S P)) ∧
    (∀ tx tx1 : Tx, tx.Commit = Outcome.ok () tx1 →
      0 < tx.disk_.page_size_ ∧
      ∃ sp rest, tx1.tx_handler_.pages_ = sp :: rest ∧ sp.page.id = tx1.meta_.buckets ∧
        sp.npages = Tx.bucketsPageCount tx1.buckets_.GetStorageSize tx.disk_.page_size_) := by
  constructor
  · intro S P hP hlt
    have hc : Tx.bucketsPageCount S P = S / P + 1 := by
      unfold Tx.bucketsPageCount
      exact Nat.mod_eq_of_lt hlt
    obtain ⟨h1, h2⟩ := floor_succ_vs_ceil S P hP
    exact ⟨hc, fun hd => hc.trans (h1 hd), fun hd => hc.trans (h2 hd)⟩
  · intro tx tx1 h
    obtain ⟨hP, hpg, _, _⟩ := commit_ok_inv tx tx1 h
    exact ⟨Nat.pos_of_ne_zero hP, hpg⟩

/-- Witness of C8, amended: the commit of `exTxAligned`. -/
theorem c8_buckets_page_span_witness :
    ∃ tx1, exTxAligned.Commit = Outcome.ok () tx1 ∧
      0 < exTxAligned.disk_.page_size_ ∧
      ∃ sp rest, tx1.tx_handler_.pages_ = sp :: rest ∧ sp.page.id = tx1.meta_.buckets ∧
        sp.npages =
          Tx.bucketsPageCount tx1.buckets_.GetStorageSize exTxAligned.disk_.page_size_ :=
  ⟨_, rfl, c8_buckets_page_span.2 exTxAligned _ rfl⟩

/-- A fixed-width little-endian integer has the width asked for. -/
theorem leBytes_length (w n : Nat) : (leBytes w n).length = w := by
  induction w generalizing n with
  | zero => rfl
  | succ w ih => simp [leBytes, ih]

/-- Reading back a fixed-width little-endian integer gives the number modulo `256 ^ w`. -/
theorem leVal_leBytes (w n : Nat) : leVal (leBytes w n) = n % 256 ^ w := by
  induction w generalizing n with
  | zero => simp [leBytes, leVal, Nat.mod_one]
  | succ w ih =>
    simp only [leBytes, leVal, ih, toByte]
    rw [pow_succ, mul_comm (256 ^ w) 256, Nat.mod_mul]

/-- A 64 bit number survives the little-endian round trip. -/
theorem leVal_leBytes_u64 (n : Nat) (h : n < U64) : leVal (leBytes 8 n) = n := by
  rw [leVal_leBytes]
  exact Nat.mod_eq_of_lt (by unfold U64 at h; omega)

/-- The length of the bytes of a list of entries. -/
theorem encode_length (es : List (Name × BucketMeta)) :
    (Buckets.encode es).length = (es.map (fun e => 8 + e.1.length + 8 + 8)).sum := by
  induction es with
  | nil => rfl
  | cons e rest ih =>
    obtain ⟨name, b⟩ := e
    simp only [Buckets.encode, List.length_append, leBytes_length, ih, List.map_cons,
      List.sum_cons]

/-- Reading the chunk of bytes that lies at the cursor. -/
theorem readBytes_chunk (pg : Page) (P n : Nat) (pre bs post : List Byte)
    (hb : pg.body = pre ++ bs ++ post) (hn : bs.length = n)
    (hfit : PAGE_HEADER_SIZE + pre.length + n ≤ pg.span P) :
    Deserializer.ReadBytes { p := pg, pos := pre.length } P n =
      some (bs, { p := pg, pos := (pre ++ bs).length }) := by
  unfold Deserializer.ReadBytes
  have hlen : pre.length + n ≤ pg.body.length := by
    rw [hb]; simp only [List.length_append]; omega
  simp only [hfit, hlen, and_self, if_true, hb, List.length_append, hn]
  subst hn
  simp

/-- Reading the 64 bit integer that lies at the cursor. -/
theorem readU64_chunk (pg : Page) (P v : Nat) (pre post : List Byte) (hv : v < U64)
    (hb : pg.body = pre ++ leBytes 8 v ++ post)
    (hfit : PAGE_HEADER_SIZE + pre.length + 8 ≤ pg.span P) :
    Deserializer.ReadU64 { p := pg, pos := pre.length } P =
      some (v, { p := pg, pos := (pre ++ leBytes 8 v).length }) := by
  unfold Deserializer.ReadU64
  rw [readBytes_chunk pg P 8 pre (leBytes 8 v) post hb (leBytes_length 8 v) hfit]
  simp only [leVal_leBytes_u64 v hv]

/-- Reading the length-prefixed string that lies at the cursor. -/
theorem readString_chunk (pg : Page) (P : Nat) (name : Name) (pre post : List Byte)
    (hv : name.length < U64)
    (hb : pg.body = pre ++ (leBytes 8 name.length ++ name) ++ post)
    (hfit : PAGE_HEADER_SIZE + pre.length + (8 + name.length) ≤ pg.span P) :
    Deserializer.ReadString { p := pg, pos := pre.length } P =
      some (name, { p := pg, pos := (pre ++ (leBytes 8 name.length ++ name)).length }) := by
  unfold Deserializer.ReadString
  have hb1 : pg.body = pre ++ leBytes 8 name.length ++ (name ++ post) := by
    rw [hb]; simp only [List.append_assoc]
  rw [readU64_chunk pg P name.length pre (name ++ post) hv hb1 (by omega)]
  simp only
  have hb2 : pg.body = (pre ++ leBytes 8 name.length) ++ name ++ post := by
    rw [hb]; simp only [List.append_assoc]
  rw [readBytes_chunk pg P name.length (pre ++ leBytes 8 name.length) name post hb2 rfl
    (by simp only [List.length_append, leBytes_length]; omega)]
  simp only [List.append_assoc]

/-- The loop of `Buckets::Read` over the bytes of a list of entries with distinct names, none
of them in the map yet: every entry is appended to the map. -/
theorem readLoop_encode (P : Nat) (pg : Page) (es : List (Name × BucketMeta)) :
    ∀ (pre post : List Byte) (acc : Buckets),
      pg.body = pre ++ Buckets.encode es ++ post →
      PAGE_HEADER_SIZE + pre.length + (Buckets.encode es).length ≤ pg.span P →
      Buckets.WF es → (es.map Prod.fst).Nodup → (∀ e ∈ es, acc.find e.1 = none) →
      Buckets.ReadLoop P es.length { p := pg, pos := pre.length } acc =
        some { buckets_ := acc.buckets_ ++ es } := by
  induction es with
  | nil =>
    intro pre post acc _ _ _ _ _
    simp [Buckets.ReadLoop]
  | cons e rest ih =>
    intro pre post acc hb hfit hwf hnd hacc
    obtain ⟨name, b⟩ := e
    obtain ⟨hlen, hroot, hauto⟩ := hwf (name, b) (List.mem_cons_self _ _)
    simp only at hlen hroot hauto
    have hwf' : Buckets.WF rest := fun x hx => hwf x (List.mem_cons_of_mem _ hx)
    simp only [List.map_cons, List.nodup_cons] at hnd
    obtain ⟨hnotin, hnd'⟩ := hnd
    have hfind : acc.find name = none := hacc (name, b) (List.mem_cons_self _ _)
    simp only [Buckets.encode, List.length_append, leBytes_length] at hfit
    simp only [Buckets.encode] at hb
    simp only [List.length_cons, Buckets.ReadLoop]
    have hb1 : pg.body = pre ++ (leBytes 8 name.length ++ name) ++
        (leBytes 8 b.auto_id_ ++ leBytes 8 b.root_ ++ Buckets.encode rest ++ post) := by
      rw [hb]; simp only [List.append_assoc]
    rw [readString_chunk pg P name pre _ hlen hb1 (by omega)]
    simp only
    have hb2 : pg.body = (pre ++ (leBytes 8 name.length ++ name)) ++ leBytes 8 b.auto_id_ ++
        (leBytes 8 b.root_ ++ Buckets.encode rest ++ post) := by
      rw [hb]; simp only [List.append_assoc]
    rw [readU64_chunk pg P b.auto_id_ _ _ hauto hb2
      (by simp only [List.length_append, leBytes_length]; omega)]
    simp only
    have hb3 : pg.body = (pre ++ (leBytes 8 name.length ++ name) ++ leBytes 8 b.auto_id_) ++
        leBytes 8 b.root_ ++ (Buckets.encode rest ++ post) := by
      rw [hb]; simp only [List.append_assoc]
    rw [readU64_chunk pg P b.root_ _ _ hroot hb3
      (by simp only [List.length_append, leBytes_length]; omega)]
    simp only [hfind, Option.isSome_none, Bool.false_eq_true, if_false, Buckets.emplace]
    have hb4 : pg.body = (pre ++ (leBytes 8 name.length ++ name) ++ leBytes 8 b.auto_id_ ++
        leBytes 8 b.root_) ++ Buckets.encode rest ++ post := by
      rw [hb]; simp only [List.append_assoc]
    have hacc' : ∀ x ∈ rest,
        (Buckets.mk (acc.buckets_ ++ [(name, BucketMeta.mk b.root_ b.auto_id_)])).find x.1
          = none := by
      intro x hx
      have hne : x.1 ≠ name := by
        intro heq
        apply hnotin
        rw [← heq]
        exact List.mem_map_of_mem Prod.fst hx
      have := hacc x (List.mem_cons_of_mem _ hx)
      simp only [Buckets.find] at this ⊢
      rw [lookup_append_single_ne _ _ _ _ hne]
      exact this
    rw [ih _ post _ hb4 (by simp only [List.length_append, leBytes_length]; omega) hwf' hnd'
      hacc']
    simp

/-- A write at the cursor of a serializer that has written `w` so far into the page `p0`. -/
theorem writeBytes_fit (P : Nat) (p0 : Page) (w bs : List Byte)
    (hfit : PAGE_HEADER_SIZE + (w ++ bs).length ≤ p0.span P) :
    Serializer.WriteBytes
        { p := { p0 with body := w ++ p0.body.drop w.length }, pos := w.length } P bs =
      some { p := { p0 with body := (w ++ bs) ++ p0.body.drop (w ++ bs).length },
             pos := (w ++ bs).length } := by
  unfold Serializer.WriteBytes
  simp only [List.length_append] at hfit
  have hsp : PAGE_HEADER_SIZE + w.length + bs.length ≤
      Page.span { p0 with body := w ++ p0.body.drop w.length } P := by
    simp only [Page.span] at hfit ⊢
    omega
  simp only [hsp, if_true, List.length_append, Option.some.injEq, Serializer.mk.injEq,
    Page.mk.injEq, true_and, and_true]
  rw [List.take_append_eq_append_take, List.drop_append_eq_append_drop]
  simp [List.drop_drop, Nat.add_comm]

/-- The loop of `Buckets::Write`, from a serializer that has written `w` so far: when the
bytes of the entries fit the logical span, they are written after `w`. -/
theorem writeLoop_fit (P : Nat) (p0 : Page) (es : List (Name × BucketMeta)) :
    ∀ (w : List Byte), PAGE_HEADER_SIZE + (w ++ Buckets.encode es).length ≤ p0.span P →
      Buckets.WriteLoop P es
          { p := { p0 with body := w ++ p0.body.drop w.length }, pos := w.length } =
        some { p := { p0 with body := (w ++ Buckets.encode es) ++
                        p0.body.drop (w ++ Buckets.encode es).length },
               pos := (w ++ Buckets.encode es).length } := by
  induction es with
  | nil =>
    intro w _
    simp [Buckets.WriteLoop, Buckets.encode]
  | cons e rest ih =>
    intro w hfit
    obtain ⟨name, b⟩ := e
    simp only [Buckets.encode, List.length_append, leBytes_length] at hfit
    simp only [Buckets.WriteLoop, Serializer.WriteString, Serializer.WriteU64,
      BucketMeta.AutoId, BucketMeta.Root]
    rw [writeBytes_fit P p0 w (leBytes 8 name.length ++ name)
      (by simp only [List.length_append, leBytes_length]; omega)]
    simp only
    rw [writeBytes_fit P p0 (w ++ (leBytes 8 name.length ++ name)) (leBytes 8 b.auto_id_)
      (by simp only [List.length_append, leBytes_length]; omega)]
    simp only
    rw [writeBytes_fit P p0 (w ++ (leBytes 8 name.length ++ name) ++ leBytes 8 b.auto_id_)
      (leBytes 8 b.root_) (by simp only [List.length_append, leBytes_length]; omega)]
    simp only
    rw [ih _ (by simp only [List.length_append, leBytes_length]; omega)]
    simp only [Buckets.encode, List.append_assoc]

/-- `Buckets::Write` of entries whose bytes fit the logical span of the page: the count is set
and the bytes are stored at the start of the body. -/
theorem buckets_write_fit (es : List (Name × BucketMeta)) (p : Page) (P : Nat)
    (hfit : PAGE_HEADER_SIZE + (Buckets.encode es).length ≤ p.span P) :
    (Buckets.mk es).Write p P =
      some { p with count := es.length % U16,
                    body := Buckets.encode es ++ p.body.drop (Buckets.encode es).length } := by
  unfold Buckets.Write
  have h := writeLoop_fit P (p.SetCount es.length) es [] (by simpa [Page.SetCount, Page.span] using hfit)
  simp only [List.nil_append, List.length_nil, List.drop_zero] at h
  simp only
  rw [h]
  rfl

/-- A lookup that finds a value finds an entry of the list. -/
theorem lookup_some_mem {β : Type} (l : List (Name × β)) (k : Name) (v : β)
    (h : l.lookup k = some v) : (k, v) ∈ l := by
  induction l with
  | nil => simp [List.lookup] at h
  | cons x xs ih =>
    obtain ⟨k1, v1⟩ := x
    simp only [List.lookup_cons] at h
    cases hk : k == k1
    · rw [hk] at h
      exact List.mem_cons_of_mem _ (ih h)
    · rw [hk] at h
      simp only [Option.some.injEq] at h
      have hkk : k = k1 := by simpa using hk
      subst hkk h
      exact List.mem_cons_self _ _

/-- In a list with distinct keys the lookup finds every entry. -/
theorem mem_lookup_some {β : Type} (l : List (Name × β)) (k : Name) (v : β)
    (hnd : (l.map Prod.fst).Nodup) (h : (k, v) ∈ l) : l.lookup k = some v := by
  induction l with
  | nil => cases h
  | cons x xs ih =>
    obtain ⟨k1, v1⟩ := x
    simp only [List.map_cons, List.nodup_cons] at hnd
    simp only [List.lookup_cons]
    rcases List.mem_cons.mp h with heq | hmem
    · simp only [Prod.mk.injEq] at heq
      obtain ⟨h1, h2⟩ := heq
      subst h1 h2
      simp
    · have hne : k ≠ k1 := by
        intro heq
        apply hnd.1
        rw [← heq]
        exact List.mem_map_of_mem Prod.fst hmem
      have hk : (k == k1) = false := by simpa using hne
      rw [hk]
      exact ih hnd.2 hmem

/-- Two lists with distinct keys and the same entries, in whatever order, answer every lookup
alike. -/
theorem lookup_perm {β : Type} (l1 l2 : List (Name × β)) (k : Name)
    (hnd : (l2.map Prod.fst).Nodup) (hp : l1.Perm l2) : l1.lookup k = l2.lookup k := by
  have hnd1 : (l1.map Prod.fst).Nodup := (hp.map Prod.fst).nodup_iff.mpr hnd
  cases h1 : l1.lookup k with
  | none =>
    cases h2 : l2.lookup k with
    | none => rfl
    | some v =>
      have hm := hp.mem_iff.mpr (lookup_some_mem _ _ _ h2)
      rw [mem_lookup_some _ _ _ hnd1 hm] at h1
      cases h1
  | some v =>
    have hm := hp.mem_iff.mp (lookup_some_mem _ _ _ h1)
    rw [mem_lookup_some _ _ _ hnd hm]

/-- C9.  For a registry `es` with pairwise distinct names, fewer than `2^16` buckets and
values of their C++ types, whose serialized form fits the logical span of the page, and for
every order `order` in which `Write` may iterate the entries: `Write` succeeds, and `Read` of
the page it produced yields a registry with exactly the entries of `es`, so that every name
is looked up to the same root and auto id as in `es`. -/
theorem c9_buckets_read_write (es order : List (Name × BucketMeta)) (p : Page) (P : Nat)
    (hnodup : (es.map Prod.fst).Nodup) (hcount : es.length < U16) (hwf : Buckets.WF es)
    (hfit : PAGE_HEADER_SIZE + (es.map (fun e => 8 + e.1.length + 8 + 8)).sum ≤ p.span P)
    (horder : order.Perm es) :
    ∃ p1 r, (Buckets.mk order).Write p P = some p1 ∧ Buckets.Read p1 P = some r ∧
      r.buckets_.Perm es ∧ r.buckets_.length = es.length ∧
      ∀ name, r.find name = (Buckets.mk es).find name := by
  have hnd' : (order.map Prod.fst).Nodup := (horder.map Prod.fst).nodup_iff.mpr hnodup
  have hlen' : order.length = es.length := horder.length_eq
  have hwf' : Buckets.WF order := fun e he => hwf e (horder.mem_iff.mp he)
  have hsum : (order.map (fun e => 8 + e.1.length + 8 + 8)).sum =
      (es.map (fun e => 8 + e.1.length + 8 + 8)).sum :=
    (horder.map _).sum_eq
  have hfit' : PAGE_HEADER_SIZE + (Buckets.encode order).length ≤ p.span P := by
    rw [encode_length, hsum]; exact hfit
  refine ⟨_, Buckets.mk order, buckets_write_fit order p P hfit', ?_, horder, hlen', ?_⟩
  · unfold Buckets.Read
    simp only
    rw [Nat.mod_eq_of_lt (by rw [hlen']; exact hcount)]
    have h := readLoop_encode P
      { p with count := order.length % U16,
               body := Buckets.encode order ++ p.body.drop (Buckets.encode order).length }
      order [] (p.body.drop (Buckets.encode order).length) (Buckets.mk [])
      (by simp) (by simpa [Page.span] using hfit') hwf' hnd'
      (by intro e _; simp [Buckets.find])
    simp only [List.length_nil, List.nil_append] at h
    rw [Nat.mod_eq_of_lt (by rw [hlen']; exact hcount)] at h
    exact h
  · intro name
    exact lookup_perm order es name hnodup horder

/-- Witness of C9: the registry `exEntries` written in the reverse order into a page of two
physical pages of 64 bytes. -/
theorem c9_buckets_read_write_witness :
    ∃ p1 r, (Buckets.mk exEntries.reverse).Write exWidePage 64 = some p1 ∧
      Buckets.Read p1 64 = some r ∧
      r.buckets_.Perm exEntries ∧ r.buckets_.length = exEntries.length ∧
      ∀ name, r.find name = (Buckets.mk exEntries).find name :=
  c9_buckets_read_write exEntries exEntries.reverse exWidePage 64 (by decide) (by decide)
    (by unfold Buckets.WF; decide) (by decide) (List.reverse_perm exEntries)

/-- The round trip of the witness of C9, run. -/
theorem c9_buckets_read_write_example :
    ((Buckets.mk exEntries.reverse).Write exWidePage 64).bind (fun p1 => Buckets.Read p1 64) =
      some (Buckets.mk exEntries.reverse) := by
  decide

/-- The overflow field is 32 bits wide: a successful `Allocate` of `2^32 + 1` pages returns a
page whose overflow field is 0, not `count - 1`. -/
theorem allocate_overflow_narrows (d : DiskHandler) (M : Meta) (sp : ShadowPage)
    (d1 : DiskHandler) (M1 : Meta)
    (h : d.Allocate M (2 ^ 32 + 1) = Outcome.ok sp (d1, M1)) :
    sp.npages = 2 ^ 32 + 1 ∧ sp.page.overflow = 0 := by
  obtain ⟨_, hsp, _, _, _, _⟩ := allocate_ok_inv _ _ _ _ _ _ h
  subst hsp
  refine ⟨rfl, ?_⟩
  simp only [Page.SetId, Page.SetOverflow, PageBuffer.GetPage0]
  decide

/-- A freshly constructed tx holds no shadow page. -/
theorem tx_new_aboveMeta (disk : DiskHandler) (writable : Bool) (M : Meta) (tx : Tx)
    (h : Tx.new disk writable M = some tx) : tx.tx_handler_.aboveMeta := by
  unfold Tx.new at h
  cases hp : disk.GetPageFromMmap M.GetBuckets with
  | none => rw [hp] at h; cases h
  | some p =>
    rw [hp] at h
    simp only at h
    cases hb : Buckets.Read p disk.page_size_ with
    | none => rw [hb] at h; cases h
    | some b =>
      rw [hb] at h
      simp only at h
      intro sp hsp
      cases writable with
      | true =>
        simp only [if_true, Option.some.injEq] at h
        subst h
        simp [ShadowPageHandler.new] at hsp
      | false =>
        simp only [Bool.false_eq_true, if_false, Option.some.injEq] at h
        subst h
        simp [ShadowPageHandler.new] at hsp

/-- `CreateBucket` keeps the shadow pages of the tx above the meta pages. -/
theorem createBucket_aboveMeta (tx : Tx) (name : Name) (t1 : Tx)
    (hinv : tx.tx_handler_.aboveMeta) (h : (tx.CreateBucket name).state? = some t1) :
    t1.tx_handler_.aboveMeta := by
  unfold Tx.CreateBucket at h
  split at h
  · simp only [Outcome.state?, Option.some.injEq] at h; subst h; exact hinv
  · split at h
    · simp only [Outcome.state?, Option.some.injEq] at h; subst h; exact hinv
    · split at h
      · simp only [Outcome.state?, Option.some.injEq] at h; subst h; exact hinv
      · split at h
        · simp only [Outcome.state?, Option.some.injEq] at h; subst h; exact hinv
        · cases hA : tx.tx_handler_.AllocateShadowPage tx.disk_ tx.meta_ 1 with
          | abort => rw [hA] at h; cases h
          | err e s =>
            obtain ⟨h1, d1, m1⟩ := s
            have hst : (tx.tx_handler_.AllocateShadowPage tx.disk_ tx.meta_ 1).state? =
                some (h1, d1, m1) := by rw [hA]; rfl
            obtain ⟨_, _, _, _, hi⟩ := allocShadow_state _ _ _ _ _ _ _ hst
            rw [hA] at h
            simp only [Outcome.state?, Option.some.injEq] at h
            subst h
            exact hi hinv
          | ok p s =>
            obtain ⟨h1, d1, m1⟩ := s
            have hst : (tx.tx_handler_.AllocateShadowPage tx.disk_ tx.meta_ 1).state? =
                some (h1, d1, m1) := by rw [hA]; rfl
            obtain ⟨_, _, _, _, hi⟩ := allocShadow_state _ _ _ _ _ _ _ hst
            obtain ⟨sp, hD, hpe, _⟩ := allocShadow_ok_inv _ _ _ _ _ _ _ _ hA
            obtain ⟨hwm, hsp, _, _, _, _⟩ := allocate_ok_inv _ _ _ _ _ _ hD
            rw [hA] at h
            simp only at h
            cases hB : tx.buckets_.AddBucket name
                (BucketMeta.mk (p.SetFlags PageFlag.LeafPage).id 0) with
            | none => rw [hB] at h; cases h
            | some r =>
              obtain ⟨bm, bs⟩ := r
              rw [hB] at h
              simp only [Outcome.state?, Option.some.injEq] at h
              subst h
              apply setLast_aboveMeta _ _ _ (hi hinv)
              rw [hpe, hsp]; exact hwm

/-- C3.  On an open writable tx, for a non-empty name absent from the registry, when the
allocation of one page succeeds (returning the shadow page `sp` and leaving the disk `d1` and
the meta `m1`), `CreateBucket` returns the `BucketMeta` whose root is the id of `sp`.  That
page is newly allocated: its id is the watermark before the call, it is a single page (no
overflow), and the call leaves the tx with the disk and the meta of the allocation, the
watermark moved past the page, and with `sp`, flagged `LeafPage`, in front of the shadow pages
it held.  The registry is the old one with the new bucket appended: `GetBucket(name)` finds a
bucket with that root, and every other name is looked up as before. -/
theorem c3_create_bucket_adds (tx : Tx) (name : Name) (sp : ShadowPage) (d1 : DiskHandler)
    (m1 : Meta) (hopen : tx.open_ = true) (hw : tx.writable_ = true) (hne : name ≠ [])
    (hfresh : tx.buckets_.GetBucket name = none)
    (halloc : tx.disk_.Allocate tx.meta_ 1 = Outcome.ok sp (d1, m1)) :
    ∃ tx', tx.CreateBucket name = Outcome.ok (BucketMeta.mk sp.page.id 0) tx' ∧
      sp.page.id = tx.meta_.watermark ∧ sp.npages = 1 ∧ sp.page.overflow = 0 ∧
      tx' = { tx with
        tx_handler_ := { tx.tx_handler_ with
          pages_ := { sp with page := sp.page.SetFlags PageFlag.LeafPage } ::
            tx.tx_handler_.pages_ },
        disk_ := d1, meta_ := m1,
        buckets_ := { buckets_ := tx.buckets_.buckets_ ++ [(name, BucketMeta.mk sp.page.id 0)] } } ∧
      tx'.meta_ = { tx.meta_ with watermark := (tx.meta_.watermark + 1) % U64 } ∧
      tx'.disk_.log = tx.disk_.log ∧
      (∃ b, tx'.GetBucket name = some (name, b) ∧ b.root_ = sp.page.id) ∧
      ∀ other, other ≠ name → tx'.buckets_.GetBucket other = tx.buckets_.GetBucket other := by
  obtain ⟨_, hsp, hm1, hlog, _, _⟩ := allocate_ok_inv _ _ _ _ _ _ halloc
  have hfind : tx.buckets_.find name = none := by rw [← getBucket_eq_find]; exact hfresh
  have hlen : name.length ≠ 0 := by
    intro h0; exact hne (List.length_eq_zero.mp h0)
  refine ⟨{ tx with
      tx_handler_ := { tx.tx_handler_ with
        pages_ := { sp with page := sp.page.SetFlags PageFlag.LeafPage } :: tx.tx_handler_.pages_ },
      disk_ := d1, meta_ := m1,
      buckets_ := { buckets_ := tx.buckets_.buckets_ ++ [(name, BucketMeta.mk sp.page.id 0)] } },
    ?_, ?_, ?_, ?_, rfl, ?_, hlog, ?_, ?_⟩
  · unfold Tx.CreateBucket
    simp only [hopen, hw, hfresh, ShadowPageHandler.AllocateShadowPage, halloc,
      Buckets.AddBucket, hfind, hlen, ShadowPageHandler.setLast]
    simp [Page.SetFlags, Buckets.emplace, hfind]
  · rw [hsp]; rfl
  · rw [hsp]
  · rw [hsp]; simp [Page.SetId, Page.SetOverflow, PageBuffer.GetPage0, U64, U32]
  · simp only [hm1, Meta.SetWatermark]
  · refine ⟨BucketMeta.mk sp.page.id 0, ?_, rfl⟩
    simp only [Tx.GetBucket, getBucket_eq_find, Buckets.emplace, hfind, Buckets.find]
    rw [lookup_append_single_self _ _ _ hfind]
  · intro other ho
    simp only [getBucket_eq_find, Buckets.emplace, hfind, Buckets.find]
    exact lookup_append_single_ne _ _ _ _ ho

/-- Witness of C3: the bucket "b" created in the open writable example tx; the page 4 is
allocated and the watermark moves from 4 to 5. -/
theorem c3_create_bucket_adds_witness :
    ∃ tx', (exTx true).CreateBucket [98] = Outcome.ok (BucketMeta.mk 4 0) tx' ∧
      tx'.meta_.watermark = 5 ∧ tx'.disk_ = exDisk ∧
      tx'.tx_handler_.pages_.map (fun s => (s.npages, s.page.id, s.page.flags)) =
        [(1, 4, PageFlag.LeafPage)] ∧
      tx'.buckets_.buckets_ = [([98], BucketMeta.mk 4 0)] ∧
      tx'.GetBucket [98] = some ([98], BucketMeta.mk 4 0) := by
  obtain ⟨tx', h1, _, _, _, h5, _, _, _, _⟩ :=
    c3_create_bucket_adds (exTx true) [98]
      { npages := 1, page := ((PageBuffer.GetPage0 1 64).SetOverflow 0).SetId 4 }
      exDisk { exMeta with watermark := 5 } rfl rfl (by decide) rfl (by decide)
  refine ⟨tx', h1, ?_⟩
  subst h5
  decide

/-- A store through the latest page view keeps the byte offsets below `2^64` when the stored
page has its own below `2^64`. -/
theorem setLast_inFile (h : ShadowPageHandler) (p : Page) (P : Nat) (hp : p.id * P < U64)
    (hinv : h.inFile P) : (h.setLast p).inFile P := by
  unfold ShadowPageHandler.setLast
  cases hpg : h.pages_ with
  | nil => simp [ShadowPageHandler.inFile, hpg]
  | cons sp rest =>
    intro sp1 hmem
    simp only [List.mem_cons] at hmem
    rcases hmem with hmem | hmem
    · rw [hmem]; exact hp
    · apply hinv; rw [hpg]; exact List.mem_cons_of_mem _ hmem

/-- A successful walk of `Spill` with room in the file: the watermark moves by the pages of the
dirty nodes, without wrapping, and the byte offsets of the shadow pages stay below `2^64`. -/
theorem spillNodes_inFile (ns : List DirtyNode) :
    ∀ (h : ShadowPageHandler) (d : DiskHandler) (m : Meta) (b : Buckets)
      (h1 : ShadowPageHandler) (d1 : DiskHandler) (m1 : Meta) (b1 : Buckets),
      ShadowPageHandler.SpillNodes ns h d m b = Outcome.ok () (h1, d1, m1, b1) →
      0 < d.page_size_ →
      (m.watermark + (ns.map DirtyNode.npages).sum) * d.page_size_ < U64 →
      h.inFile d.page_size_ →
      h1.inFile d.page_size_ ∧
        m1.watermark = m.watermark + (ns.map DirtyNode.npages).sum := by
  induction ns with
  | nil =>
    intro h d m b h1 d1 m1 b1 hs _ _ hin
    simp only [ShadowPageHandler.SpillNodes, Outcome.ok.injEq, Prod.mk.injEq, true_and] at hs
    obtain ⟨h2, h3, h4, h5⟩ := hs
    subst h2 h3 h4 h5
    exact ⟨hin, by simp⟩
  | cons n rest ih =>
    intro h d m b h1 d1 m1 b1 hs hP hroom hin
    unfold ShadowPageHandler.SpillNodes at hs
    simp only [List.map_cons, List.sum_cons] at hroom ⊢
    cases hA : h.AllocateShadowPage d m n.npages with
    | abort => rw [hA] at hs; cases hs
    | err e s => obtain ⟨ha, da, ma⟩ := s; rw [hA] at hs; cases hs
    | ok p s =>
      obtain ⟨ha, da, ma⟩ := s
      have hst : (h.AllocateShadowPage d m n.npages).state? = some (ha, da, ma) := by
        rw [hA]; rfl
      obtain ⟨_, hps, _, _, _⟩ := allocShadow_state _ _ _ _ _ _ _ hst
      obtain ⟨sp, hD, hpe, hh⟩ := allocShadow_ok_inv _ _ _ _ _ _ _ _ hA
      obtain ⟨_, hsp, hma, _, _, _⟩ := allocate_ok_inv _ _ _ _ _ _ hD
      rw [hA] at hs
      simp only at hs
      have htot : m.watermark + (n.npages + (rest.map DirtyNode.npages).sum) < U64 :=
        lt_of_le_of_lt (Nat.le_mul_of_pos_right _ hP) hroom
      have hwm : ma.watermark = m.watermark + n.npages := by
        rw [hma]; simp only [Meta.SetWatermark]
        exact Nat.mod_eq_of_lt (by omega)
      have hpid : p.id = m.watermark := by rw [hpe, hsp]; rfl
      have hpfile : (p.SetFlags n.flags).id * d.page_size_ < U64 := by
        have : m.watermark * d.page_size_ ≤
            (m.watermark + (n.npages + (rest.map DirtyNode.npages).sum)) * d.page_size_ :=
          Nat.mul_le_mul_right _ (by omega)
        simp only [Page.SetFlags, hpid]
        omega
      have hin' : (ha.setLast (p.SetFlags n.flags)).inFile da.page_size_ := by
        rw [hps]
        apply setLast_inFile _ _ _ hpfile
        rw [hh]
        intro s hs'
        simp only [List.mem_cons] at hs'
        rcases hs' with hs' | hs'
        · rw [hs', hsp]
          simp only [Page.SetFlags, hpid] at hpfile
          exact hpfile
        · exact hin s hs'
      have hroom' : (ma.watermark + (rest.map DirtyNode.npages).sum) * da.page_size_ < U64 := by
        rw [hwm, hps, Nat.add_assoc]; exact hroom
      obtain ⟨r1, r2⟩ := ih _ _ _ _ _ _ _ _ hs (by rw [hps]; exact hP) hroom' hin'
      rw [hps] at r1
      exact ⟨r1, by rw [r2, hwm, Nat.add_assoc]⟩

/-- The state in which `Commit` calls `WriteDirtyPages`, for a tx in the data range: every
shadow page lies above the meta pages at a byte offset below `2^64`. -/
theorem commit_inFile (tx : Tx) (h0 : ShadowPageHandler) (d0 : DiskHandler) (m0 : Meta)
    (b : Buckets) (P : Nat) (p : Page) (h1 : ShadowPageHandler) (d1 : DiskHandler) (m1 : Meta)
    (p1 : Page) (hrange : tx.inDataRange)
    (hS : tx.tx_handler_.Spill tx.disk_ tx.meta_ tx.buckets_ = Outcome.ok () (h0, d0, m0, b))
    (hP : d0.PageSize = some P) (hP0 : P ≠ 0)
    (hA : h0.AllocateShadowPage d0 m0 (Tx.bucketsPageCount b.GetStorageSize P) =
      Outcome.ok p (h1, d1, m1))
    (hW : b.Write p P = some p1) :
    (h1.setLast p1).aboveMeta ∧ (h1.setLast p1).inFile d1.page_size_ := by
  obtain ⟨hab, hin, hroom⟩ := hrange
  obtain ⟨_, hp1, hPe, hi, _, _⟩ :=
    commit_before_write tx h0 d0 m0 b P p h1 d1 m1 p1 hS hP hA hW
  refine ⟨hi hab, ?_⟩
  have hP' : 0 < tx.disk_.page_size_ := by rw [← hPe]; exact Nat.pos_of_ne_zero hP0
  obtain ⟨hin0, hwm0⟩ := spillNodes_inFile _ _ _ _ _ _ _ _ _ hS hP' hroom hin
  obtain ⟨sp, hD, hpe, hh⟩ := allocShadow_ok_inv _ _ _ _ _ _ _ _ hA
  obtain ⟨_, hsp, _, _, _, _⟩ := allocate_ok_inv _ _ _ _ _ _ hD
  obtain ⟨hid, _, _, _⟩ := buckets_write_header _ _ _ _ hW
  have hpid : p1.id = m0.watermark := by rw [hid, hpe, hsp]; rfl
  rw [hp1]
  apply setLast_inFile
  · rw [hpid, hwm0]; exact hroom
  · rw [hh]
    intro s hs'
    simp only [List.mem_cons] at hs'
    rcases hs' with hs' | hs'
    · rw [hs', hsp]
      simp only [Page.SetId]
      rw [hwm0]; exact hroom
    · exact hin0 s hs'

/-- C5, as stated, fails.  The tx `exTxWrap` is the writable tx the constructor builds from the
snapshot `exMetaWrap`, the active meta, which has the txid 6 and so lives in meta page 0.  Its
`Commit` allocates the buckets page at the id `2^52`, whose byte offset `2^52 * 4096` wraps to
0.  `WriteDirtyPages` writes its 4096 bytes at offset 0, over meta page 0, and returns the
error of the failed `fsync`; `Commit` returns that error, and the log, which had no write to a
meta page, has one. -/
theorem c5_data_write_lands_on_meta_page :
    Tx.new exDiskWrap true exMetaWrap = some exTxWrap ∧
    exMetaWrap.txid % 2 = 0 ∧
    exTxWrap.tx_handler_.aboveMeta ∧
    ∃ h0 d0 m0 b p h1 d1 m1 p1 d2 tx1,
      exTxWrap.tx_handler_.Spill exTxWrap.disk_ exTxWrap.meta_ exTxWrap.buckets_ =
        Outcome.ok () (h0, d0, m0, b) ∧
      d0.PageSize = some 4096 ∧
      h0.AllocateShadowPage d0 m0 (Tx.bucketsPageCount b.GetStorageSize 4096) =
        Outcome.ok p (h1, d1, m1) ∧
      b.Write p 4096 = some p1 ∧
      (h1.setLast p1).WriteDirtyPages d1 = Outcome.err (Error.mk "fsync failed") d2 ∧
      exTxWrap.Commit = Outcome.err (Error.mk "fsync failed") tx1 ∧
      p1.id = 2 ^ 52 ∧ 2 < p1.id ∧
      tx1.disk_.log = [DiskOp.write 0 4096 p1, DiskOp.sync] ∧
      metaWrites 4096 exTxWrap.disk_.log = [] ∧
      metaWrites 4096 tx1.disk_.log = [DiskOp.write 0 4096 p1] := by
  refine ⟨by rfl, by decide,
    by intro sp hsp; simp [exTxWrap, ShadowPageHandler.new] at hsp,
    _, _, _, _, _, _, _, _, _, _, _, rfl, rfl, rfl, rfl, rfl, rfl, rfl, by decide, rfl, rfl, rfl⟩

/-- C5, amended.  When `Spill` returns an error, or the allocation of the buckets page does,
`Commit` returns that error and the log of the disk is what it was.  When `WriteDirtyPages`
returns an error, `Commit` returns that error and leaves the disk as `WriteDirtyPages` left
it: `WriteMeta` has not run; and for a tx in the data range (its shadow pages, held or
allocated by this commit, have ids above 2 and byte offsets `id * P` below `2^64`) no write to
a byte of the meta pages has been added to the log.  For such a tx, whenever `Commit` returns
with a new write to the bytes of the meta pages in the log, `WriteDirtyPages` had returned
success before, leaving a log without that write that ends with an `fsync`, and of which the
final log is a continuation. -/
theorem c5_commit_meta_write_last (tx : Tx) :
    (∀ e s, tx.tx_handler_.Spill tx.disk_ tx.meta_ tx.buckets_ = Outcome.err e s →
      ∃ tx1, tx.Commit = Outcome.err e tx1 ∧ tx1.disk_.log = tx.disk_.log) ∧
    (∀ h0 d0 m0 b P e s,
      tx.tx_handler_.Spill tx.disk_ tx.meta_ tx.buckets_ = Outcome.ok () (h0, d0, m0, b) →
      d0.PageSize = some P → P ≠ 0 →
      h0.AllocateShadowPage d0 m0 (Tx.bucketsPageCount b.GetStorageSize P) = Outcome.err e s →
      ∃ tx1, tx.Commit = Outcome.err e tx1 ∧ tx1.disk_.log = tx.disk_.log) ∧
    (∀ h0 d0 m0 b P p h1 d1 m1 p1 e d2,
      tx.tx_handler_.Spill tx.disk_ tx.meta_ tx.buckets_ = Outcome.ok () (h0, d0, m0, b) →
      d0.PageSize = some P → P ≠ 0 →
      h0.AllocateShadowPage d0 m0 (Tx.bucketsPageCount b.GetStorageSize P) =
        Outcome.ok p (h1, d1, m1) →
      b.Write p P = some p1 →
      (h1.setLast p1).WriteDirtyPages d1 = Outcome.err e d2 →
      ∃ tx1, tx.Commit = Outcome.err e tx1 ∧ tx1.disk_ = d2 ∧
        (tx.inDataRange →
          metaWrites tx.disk_.page_size_ tx1.disk_.log =
            metaWrites tx.disk_.page_size_ tx.disk_.log)) ∧
    (tx.inDataRange →
      ∀ tx1, tx.Commit.state? = some tx1 →
      metaWrites tx.disk_.page_size_ tx1.disk_.log ≠
        metaWrites tx.disk_.page_size_ tx.disk_.log →
      ∃ h0 d0 m0 b P p h1 d1 m1 p1 d2,
        tx.tx_handler_.Spill tx.disk_ tx.meta_ tx.buckets_ = Outcome.ok () (h0, d0, m0, b) ∧
        d0.PageSize = some P ∧
        h0.AllocateShadowPage d0 m0 (Tx.bucketsPageCount b.GetStorageSize P) =
          Outcome.ok p (h1, d1, m1) ∧
        b.Write p P = some p1 ∧
        (h1.setLast p1).WriteDirtyPages d1 = Outcome.ok () d2 ∧
        metaWrites tx.disk_.page_size_ d2.log = metaWrites tx.disk_.page_size_ tx.disk_.log ∧
        (∃ pre, d2.log = pre ++ [DiskOp.sync]) ∧
        ∃ ops, tx1.disk_.log = d2.log ++ ops) := by
  refine ⟨?_, ?_, ?_, ?_⟩
  · intro e s hS
    obtain ⟨h0, d0, m0, b⟩ := s
    have hS1 : (tx.tx_handler_.Spill tx.disk_ tx.meta_ tx.buckets_).state? =
        some (h0, d0, m0, b) := by rw [hS]; rfl
    obtain ⟨hl0, _, _, _, _⟩ := spill_state _ _ _ _ _ _ _ _ hS1
    refine ⟨{ tx with tx_handler_ := h0, disk_ := d0, meta_ := m0, buckets_ := b }, ?_, hl0⟩
    unfold Tx.Commit
    rw [hS]
  · intro h0 d0 m0 b P e s hS hP hP0 hA
    obtain ⟨h1, d1, m1⟩ := s
    have hS1 : (tx.tx_handler_.Spill tx.disk_ tx.meta_ tx.buckets_).state? =
        some (h0, d0, m0, b) := by rw [hS]; rfl
    obtain ⟨hl0, _, _, _, _⟩ := spill_state _ _ _ _ _ _ _ _ hS1
    have hA1 : (h0.AllocateShadowPage d0 m0 (Tx.bucketsPageCount b.GetStorageSize P)).state? =
        some (h1, d1, m1) := by rw [hA]; rfl
    obtain ⟨hl1, _, _, _, _⟩ := allocShadow_state _ _ _ _ _ _ _ hA1
    refine ⟨{ tx with tx_handler_ := h1, disk_ := d1, meta_ := m1, buckets_ := b }, ?_,
      hl1.trans hl0⟩
    unfold Tx.Commit
    simp only [hS, hP, hP0, if_false, hA]
  · intro h0 d0 m0 b P p h1 d1 m1 p1 e d2 hS hP hP0 hA hW hD
    obtain ⟨hl, hps, _, _, _, _⟩ :=
      commit_before_write tx h0 d0 m0 b P p h1 d1 m1 p1 hS hP hA hW
    have hD1 : ((h1.setLast p1).WriteDirtyPages d1).state? = some d2 := by rw [hD]; rfl
    refine ⟨{ tx with tx_handler_ := h1.setLast p1, disk_ := d2,
                      meta_ := m1.SetBuckets p1.id, buckets_ := b }, ?_, rfl, ?_⟩
    · unfold Tx.Commit
      simp only [hS, hP, hP0, if_false, hA, hW, hD]
    · intro hrange
      obtain ⟨hab, hin⟩ := commit_inFile tx h0 d0 m0 b P p h1 d1 m1 p1 hrange hS hP hP0 hA hW
      have hext := writeDirtyPages_dataExt _ _ _ hab hin hD1
      have hmw := dataExt_metaWrites hext
      rw [hps, hl] at hmw
      exact hmw
  · intro hrange tx1 hs hne
    rcases commit_cases tx tx1 hs with
      ⟨e, h0, d0, m0, b, hS, hC⟩ | ⟨h0, d0, m0, b, P, hS, hP, hP0, hrest⟩
    · exfalso
      apply hne
      have hS1 : (tx.tx_handler_.Spill tx.disk_ tx.meta_ tx.buckets_).state? =
          some (h0, d0, m0, b) := by rw [hS]; rfl
      obtain ⟨hl0, _, _, _, _⟩ := spill_state _ _ _ _ _ _ _ _ hS1
      rw [hC] at hs
      simp only [Outcome.state?, Option.some.injEq] at hs
      subst hs
      simp only
      rw [hl0]
    · have hS1 : (tx.tx_handler_.Spill tx.disk_ tx.meta_ tx.buckets_).state? =
          some (h0, d0, m0, b) := by rw [hS]; rfl
      obtain ⟨hl0, _, _, _, _⟩ := spill_state _ _ _ _ _ _ _ _ hS1
      rcases hrest with ⟨e, h1, d1, m1, hA, hC⟩ | ⟨p, h1, d1, m1, p1, hA, hW, hrest⟩
      · exfalso
        apply hne
        have hA1 : (h0.AllocateShadowPage d0 m0
            (Tx.bucketsPageCount b.GetStorageSize P)).state? = some (h1, d1, m1) := by
          rw [hA]; rfl
        obtain ⟨hl1, _, _, _, _⟩ := allocShadow_state _ _ _ _ _ _ _ hA1
        rw [hC] at hs
        simp only [Outcome.state?, Option.some.injEq] at hs
        subst hs
        simp only
        rw [hl1, hl0]
      · obtain ⟨hl, hps, _, _, _, _⟩ :=
          commit_before_write tx h0 d0 m0 b P p h1 d1 m1 p1 hS hP hA hW
        obtain ⟨hab, hin⟩ :=
          commit_inFile tx h0 d0 m0 b P p h1 d1 m1 p1 hrange hS hP hP0 hA hW
        rcases hrest with ⟨e, d2, hD, hC⟩ | ⟨d2, hD, hC⟩
        · exfalso
          apply hne
          have hD1 : ((h1.setLast p1).WriteDirtyPages d1).state? = some d2 := by
            rw [hD]; rfl
          have hmw := dataExt_metaWrites (writeDirtyPages_dataExt _ _ _ hab hin hD1)
          rw [hps, hl] at hmw
          rw [hC] at hs
          simp only [Outcome.state?, Option.some.injEq] at hs
          subst hs
          exact hmw
        · have hD1 : ((h1.setLast p1).WriteDirtyPages d1).state? = some d2 := by
            rw [hD]; rfl
          have hmw := dataExt_metaWrites (writeDirtyPages_dataExt _ _ _ hab hin hD1)
          rw [hps, hl] at hmw
          rw [hC] at hs
          obtain ⟨_, _, ops, hops⟩ := writeMeta_state _ _ hs
          exact ⟨h0, d0, m0, b, P, p, h1, d1, m1, p1, d2, hS, hP, hA, hW, hD, hmw,
            writeDirtyPages_ok_sync _ _ _ hD, ops, hops⟩

/-- The example tx `exTxDirty` is in the data range. -/
theorem exTxDirty_inDataRange : exTxDirty.inDataRange := by
  refine ⟨?_, ?_, by decide⟩
  · intro sp hsp
    simp only [exTxDirty, List.mem_singleton] at hsp
    subst hsp
    decide
  · intro sp hsp
    simp only [exTxDirty, List.mem_singleton] at hsp
    subst hsp
    decide

/-- Witness of C5, amended: the first write of `WriteDirtyPages` fails on `exTxDirty`; `Commit`
returns that error, the disk is left with the one failed write of the data page 4, at the byte
offset 256, in its log, and no byte of a meta page has been written. -/
theorem c5_commit_meta_write_last_witness :
    exTxDirty.inDataRange ∧
    ∃ tx1, exTxDirty.Commit = Outcome.err (Error.mk "IO Error") tx1 ∧
      tx1.disk_ = { exDisk with log := [DiskOp.write 256 64
        ((((PageBuffer.GetPage0 1 64).SetOverflow 0).SetId 4).SetFlags PageFlag.LeafPage)] } ∧
      metaWrites 64 tx1.disk_.log = [] ∧ metaWrites 64 exTxDirty.disk_.log = [] := by
  obtain ⟨tx1, h1, h2, h3⟩ := (c5_commit_meta_write_last exTxDirty).2.2.1
    _ _ _ _ 64 _ _ _ _ _ (Error.mk "IO Error") _ rfl rfl (by decide) rfl rfl rfl
  have h4 : metaWrites 64 exTxDirty.disk_.log = [] := rfl
  exact ⟨exTxDirty_inDataRange, tx1, h1, h2, (h3 exTxDirty_inDataRange).trans h4, h4⟩

/-- The tx `exTxWrap` is outside the data range: the byte offset `2^52 * 4096` of the page its
commit allocates is `2^64`. -/
theorem exTxWrap_not_inDataRange : ¬ exTxWrap.inDataRange := by
  intro h
  have := h.2.2
  revert this
  decide

/-- Every successful `Commit`, of a read-only tx as of a writable one, leaves a shadow page
allocated and, for a page size that fits 64 bits, a write of bytes of a meta page in the log. -/
theorem commit_ok_allocates_and_writes_meta (tx tx1 : Tx) (h : tx.Commit = Outcome.ok () tx1)
    (hP : tx.disk_.page_size_ < U64) :
    tx1.tx_handler_.pages_ ≠ [] ∧
      ∃ op ∈ tx1.disk_.log, op.isMetaWrite tx.disk_.page_size_ = true := by
  obtain ⟨hP0, ⟨sp, rest, hpg, _, _⟩, _, pre, hlog⟩ := commit_ok_inv tx tx1 h
  refine ⟨by rw [hpg]; simp,
    DiskOp.write (((tx1.meta_.txid % 2) * tx.disk_.page_size_) % U64)
      (((0 + 1) * tx.disk_.page_size_) % U64)
      (tx1.meta_.Write (PageBuffer.GetPage0 1 tx.disk_.page_size_)), ?_, ?_⟩
  · rw [hlog]
    exact List.mem_append_right _ (List.mem_cons_self _ _)
  · simp only [DiskOp.isMetaWrite, decide_eq_true_eq, zero_add, one_mul]
    rw [Nat.mod_eq_of_lt hP]
    have h2 : tx1.meta_.txid % 2 < 2 := Nat.mod_lt _ (by decide)
    have h3 : (tx1.meta_.txid % 2) * tx.disk_.page_size_ % U64 ≤
        (tx1.meta_.txid % 2) * tx.disk_.page_size_ := Nat.mod_le _ _
    have h4 : (tx1.meta_.txid % 2) * tx.disk_.page_size_ ≤ 1 * tx.disk_.page_size_ :=
      Nat.mul_le_mul_right _ (by omega)
    omega

/-- The tx of the witness of C10, run: after `CreateBucket("b")` its `Commit` succeeds, and so
does a second `Commit`; both write, at the offset 0, a meta page whose txid bytes hold 8. -/
theorem c10_txid_example :
    ((Tx.new exDiskFormatted true exMeta).bind (fun tx =>
      (tx.CreateBucket [98]).state?.bind (fun t =>
        if t.Commit.isOk then
          t.Commit.state?.bind (fun t1 => if t1.Commit.isOk then t1.Commit.state? else none)
        else none))).map (fun t2 =>
      (t2.meta_.txid,
        (metaWrites 64 t2.disk_.log).map (fun op =>
          match op with
          | DiskOp.write offset _ p => (offset, Meta.txidOfPage p)
          | DiskOp.sync => (0, 0)))) =
      some (8, [(0, 8), (0, 8)]) := by
  decide

end kv
